import Mathlib

/-! # waitfordevice

A shallow embedding of `waitfordevice.c`: argument parsing, the polling loop
that waits for a device node to appear, and the identification stage that
opens the device, queries `HDIO_GET_IDENTITY`, prints the alphanumeric
model/serial and checks an optional signature.

Strings are lists of bytes (`Nat`).  The operating system is an explicit
environment `Env` that fixes the result of every system call the program
makes, with the bytes of `struct hd_driveid hd` that the identity query
leaves; `hd.model` and `hd.serial_no` are pointers into these bytes.  What the
program does is recorded as a list of `Event`s together with its exit code.
-/

namespace Waitfordevice

/-! ## Constants -/

/-- Line 43: `#define EXIT_NORMAL 0` -/
def EXIT_NORMAL : Int := 0

/-- Line 44: `#define EXIT_ERROR 1` -/
def EXIT_ERROR : Int := 1

/-- Line 45: `#define EXIT_SIGNATURE_MISSMATCH 2` -/
def EXIT_SIGNATURE_MISSMATCH : Int := 2

/-- Line 46: `#define EXIT_GIVEUP 3` -/
def EXIT_GIVEUP : Int := 3

/-- The value of `ENOMSG` in `<errno.h>` on Linux ("No message of desired type"). A failed
system call stores a positive error number in `errno`. -/
def ENOMSG : Int := 42

/-! ## Strings -/

/-- The bytes of an ASCII string literal of the source. -/
def bytes (s : String) : List Nat := s.toList.map Char.toNat

/-- The C string that starts at the beginning of a buffer: its bytes before the first NUL. -/
def cstr : List Nat → List Nat
  | [] => []
  | c :: rest => if c = 0 then [] else c :: cstr rest

/-- The function `isalnum` of `<ctype.h>` in the "C" locale (the program never calls `setlocale`):
the digits, the upper-case and the lower-case letters. -/
def isalnum (c : Nat) : Bool :=
  (48 ≤ c && c ≤ 57) || (65 ≤ c && c ≤ 90) || (97 ≤ c && c ≤ 122)

/-- The print loop of lines 146 and 153:
`while (*hdsn) { if (isalnum(*hdsn)) { fprintf(stdout,"%c", *hdsn); } hdsn++; }`,
as the bytes it writes. -/
def printAlnum : List Nat → List Nat
  | [] => []
  | c :: rest =>
    if c = 0 then []
    else if isalnum c then c :: printAlnum rest
    else printAlnum rest

/-- Whether the bytes `needle` are found at the very start of `hay`. -/
def startsWith : List Nat → List Nat → Bool
  | _, [] => true
  | [], _ :: _ => false
  | h :: hs, n :: ns => h == n && startsWith hs ns

/-- Search of the C string `needle` in the C string `hay`, position by position. -/
def strstrAux (hay needle : List Nat) : Option Nat :=
  if startsWith hay needle then some 0
  else match hay with
    | [] => none
    | _ :: rest => (strstrAux rest needle).map (· + 1)

/-- The function `strstr(haystack, needle)` of `<string.h>`: the offset of the first occurrence of the
C string `needle` in the C string `haystack`, `none` for `NULL`. Both arguments are read up
to their terminating NUL. -/
def strstr (haystack needle : List Nat) : Option Nat :=
  strstrAux (cstr haystack) (cstr needle)

/-- What `%s` prints for a `char *`: the C string, and `(null)` for a `NULL` pointer
(as glibc does). -/
def fmtS : Option (List Nat) → List Nat
  | none => bytes "(null)"
  | some s => cstr s

/-- What `%d` prints for an `int`. -/
def fmtD (n : Int) : List Nat := bytes (toString n)

/-! ## Configuration, environment, events -/

/-- The local variables of `main` that argument parsing sets (lines 52-58). -/
structure Config where
  /-- Line 52: `int print_model = 0;` set by `-M` -/
  print_model : Bool
  /-- Line 53: `int print_serial = 0;` set by `-S` -/
  print_serial : Bool
  /-- Line 54: `int verbose = 0;` set by `-v` -/
  verbose : Bool
  /-- Line 55: `int polling_wait = 250000;` microseconds, set by `-p` -/
  polling_wait : Int
  /-- Line 56: `char *sig = NULL;` set by `-s` -/
  sig : Option (List Nat)
  /-- Line 57: `char *device = NULL;` set by `-d` -/
  device : Option (List Nat)
  /-- Line 58: `int retries = -1;` set by `-r` -/
  retries : Int
deriving DecidableEq, Repr

/-- The results of the system calls of one run. -/
structure Env where
  /-- The result of the `i`-th call (from 0) of `access(device, F_OK)`: 0 when the path exists. -/
  access : Nat → Int
  /-- The result of `open(device, O_RDONLY|O_NONBLOCK)`: negative on failure. -/
  openFd : Int
  /-- The result of `ioctl(fd, HDIO_GET_IDENTITY, &hd)`: 0 on success. -/
  ioctlRet : Int
  /-- The value of `errno` after the `ioctl`. -/
  errno : Int
  /-- The bytes of `static struct hd_driveid hd` (line 62) after the `ioctl`: the 512 bytes
  of the structure of `<linux/hdreg.h>`, all of them 0 while the `ioctl` has not filled
  them. A string read that meets no NUL byte up to the end of the structure leaves the
  object, which C does not define; the list ends there. -/
  hd : List Nat

/-- The offset of the member `unsigned char serial_no[20]` in `struct hd_driveid`: it
follows ten `unsigned short` members. -/
def serialOffset : Nat := 20

/-- The offset of the member `unsigned char model[40]` in `struct hd_driveid`: it follows
`serial_no`, the three `unsigned short` members `buf_type`, `buf_size`, `ecc_bytes` and
`unsigned char fw_rev[8]`. -/
def modelOffset : Nat := 54

/-- The memory that the pointer `hd.serial_no` points to: the bytes of `hd` from the start
of the member on. The member has no terminating NUL of its own, and after it come
`buf_type`, `buf_size`, `ecc_bytes`, `fw_rev`, `model` and the rest of the structure. -/
def Env.serial_no (env : Env) : List Nat := env.hd.drop serialOffset

/-- The memory that the pointer `hd.model` points to: the bytes of `hd` from the start of
the member on. The member has no terminating NUL of its own, and after it comes the rest of
the structure. -/
def Env.model (env : Env) : List Nat := env.hd.drop modelOffset

/-- The raw serial field: the 20 bytes of the member `serial_no`. -/
def Env.serialField (env : Env) : List Nat := env.serial_no.take 20

/-- The raw model field: the 40 bytes of the member `model`. -/
def Env.modelField (env : Env) : List Nat := env.model.take 40

/-- What the program does that can be observed from outside. -/
inductive Event where
  /-- A call `access(device, F_OK)`. -/
  | access (path : Option (List Nat))
  /-- A call `usleep(usec)`, with the `int` that is passed. -/
  | usleep (usec : Int)
  /-- Bytes written to stdout. -/
  | out (text : List Nat)
  /-- Bytes written to stderr. -/
  | err (text : List Nat)
  /-- A call `open(device, O_RDONLY|O_NONBLOCK)`. -/
  | openDevice (path : Option (List Nat))
  /-- A call `ioctl(fd, HDIO_GET_IDENTITY, &hd)`. -/
  | ioctl
deriving DecidableEq, Repr

/-- The number of existence checks in a trace. -/
def checks : List Event → Nat
  | [] => 0
  | Event.access _ :: t => checks t + 1
  | _ :: t => checks t

/-- The arguments of the sleeps of a trace, in order. -/
def sleeps : List Event → List Int
  | [] => []
  | Event.usleep u :: t => u :: sleeps t
  | _ :: t => sleeps t

/-- The text written to stdout by a trace. -/
def stdout : List Event → List Nat
  | [] => []
  | Event.out s :: t => s ++ stdout t
  | _ :: t => stdout t

/-- The number of calls of `open` in a trace. -/
def opens : List Event → Nat
  | [] => 0
  | Event.openDevice _ :: t => opens t + 1
  | _ :: t => opens t

/-- The number of identity queries in a trace. -/
def ioctls : List Event → Nat
  | [] => 0
  | Event.ioctl :: t => ioctls t + 1
  | _ :: t => ioctls t

/-! ## The polling loop (lines 122-135) -/

/-- How the polling loop stands after some iterations. -/
inductive PollStatus where
  /-- The `break` at line 124: the path exists. -/
  | found
  /-- The `exit(EXIT_GIVEUP)` at line 130. -/
  | gaveUp
  /-- Back at the head of `while (1)`, the iterations allowed are used up. -/
  | polling
deriving DecidableEq, Repr

/-- The outcome of running the polling loop for a number of iterations. -/
structure PollOut where
  /-- The events of the loop. -/
  trace : List Event
  /-- Where the loop stands. -/
  status : PollStatus
  /-- The value of the variable `retries`. -/
  retries : Int
deriving DecidableEq, Repr

/-- The events of one iteration in which `access` fails and the loop goes on:
the check, the progress dot when verbose, and the sleep. -/
def failedAttempt (cfg : Config) : List Event :=
  Event.access cfg.device ::
    ((if cfg.verbose then [Event.out (bytes ".")] else []) ++ [Event.usleep cfg.polling_wait])

/-- The loop `while (1) { ... }` of lines 122-135, run for at most `fuel` iterations.
`i` is the number of calls of `access` made before, `retries` the current value of the
variable. -/
def pollLoop (cfg : Config) (env : Env) : Nat → Nat → Int → PollOut
  | 0, _, retries => { trace := [], status := PollStatus.polling, retries := retries }
  | fuel + 1, i, retries =>
    if env.access i = 0 then
      { trace := [Event.access cfg.device], status := PollStatus.found, retries := retries }
    else
      let dot : List Event := if cfg.verbose then [Event.out (bytes ".")] else []
      if 0 < retries then
        if retries = 1 then
          { trace := Event.access cfg.device :: (dot ++ [Event.out (bytes "No device found\n")]),
            status := PollStatus.gaveUp, retries := retries }
        else
          let r := pollLoop cfg env fuel (i + 1) (retries - 1)
          { r with trace := Event.access cfg.device ::
                      (dot ++ Event.usleep cfg.polling_wait :: r.trace) }
      else
        let r := pollLoop cfg env fuel (i + 1) retries
        { r with trace := Event.access cfg.device ::
                    (dot ++ Event.usleep cfg.polling_wait :: r.trace) }

/-! ## Identification (lines 137-180) -/

/-- The events and the exit code of a part of the program that runs to its end. -/
structure Outcome where
  /-- The events, in order. -/
  trace : List Event
  /-- The exit code of the process. -/
  code : Int
deriving DecidableEq, Repr

/-- Output of lines 144-155: the model and serial as requested by `-M` and `-S`. -/
def dataOutput (cfg : Config) (env : Env) : List Event :=
  (if cfg.print_model then
      Event.out (printAlnum env.model) ::
        (if !cfg.print_serial then [Event.out (bytes "\n")] else [])
    else []) ++
  (if cfg.print_serial then
      (if cfg.print_model then [Event.out (bytes "-")] else []) ++
        [Event.out (printAlnum env.serial_no), Event.out (bytes "\n")]
    else [])

/-- Lines 142-180: what follows the `ioctl`, according to its result. -/
def afterIoctl (cfg : Config) (env : Env) : Outcome :=
  if env.ioctlRet = 0 then
    let shown : List Event := dataOutput cfg env ++
      (if cfg.verbose then
        [Event.out (cstr env.model ++ bytes " " ++ cstr env.serial_no ++ bytes "\n")]
      else [])
    match cfg.sig with
    | some sig =>
      if (strstr env.model sig).isNone && (strstr env.serial_no sig).isNone then
        { trace := shown ++
            (if cfg.verbose then [Event.out (bytes "No signature match on device\n")] else []),
          code := EXIT_SIGNATURE_MISSMATCH }
      else
        { trace := shown ++
            (if cfg.verbose then [Event.out (bytes "Signature match\n")] else []),
          code := EXIT_NORMAL }
    | none => { trace := shown, code := EXIT_NORMAL }
  else if env.errno = -ENOMSG then
    match cfg.sig with
    | some _ =>
      { trace :=
          if cfg.verbose then
            [Event.out (bytes "\nNo hard disk identification information available\n")]
          else [],
        code := EXIT_SIGNATURE_MISSMATCH }
    | none => { trace := [], code := EXIT_NORMAL }
  else
    { trace := if cfg.verbose then [Event.out (bytes "ERROR: HDIO_GET_IDENTITY")] else [],
      code := EXIT_NORMAL }

/-- Lines 137-180: open the device, query its identity, print and verify. -/
def inspect (cfg : Config) (env : Env) : Outcome :=
  if env.openFd < 0 then
    { trace := Event.openDevice cfg.device ::
        (if cfg.verbose then
          [Event.out (bytes "ERROR: Cannot open device " ++ fmtS cfg.device ++ bytes "\n")]
        else []),
      code := EXIT_ERROR }
  else
    let r := afterIoctl cfg env
    { r with trace := Event.openDevice cfg.device :: Event.ioctl :: r.trace }

/-! ## The program after argument parsing (lines 116-180) -/

/-- Lines 116-120: the line printed before polling when verbose. -/
def banner (cfg : Config) : List Event :=
  if cfg.verbose then
    [Event.out (bytes "Waiting for '" ++ fmtS cfg.device ++ bytes "'")] ++
    (match cfg.sig with
      | some sig => [Event.out (bytes " with signature: '" ++ cstr sig ++ bytes "'")]
      | none => []) ++
    [Event.out (bytes " polling every " ++ fmtD (Int.tdiv cfg.polling_wait 1000) ++ bytes "ms\n")]
  else []

/-- A run of the program: its events, and its exit code if it has ended. -/
structure Run where
  /-- The events so far. -/
  trace : List Event
  /-- The exit code, `none` while the program is still polling. -/
  exit : Option Int
deriving DecidableEq, Repr

/-- Lines 116-180 of `main`, the polling loop run for at most `fuel` iterations. -/
def run (cfg : Config) (env : Env) (fuel : Nat) : Run :=
  let p := pollLoop cfg env fuel 0 cfg.retries
  match p.status with
  | PollStatus.polling => { trace := banner cfg ++ p.trace, exit := none }
  | PollStatus.gaveUp => { trace := banner cfg ++ p.trace, exit := some EXIT_GIVEUP }
  | PollStatus.found =>
    let r := inspect cfg env
    { trace := banner cfg ++ p.trace ++ r.trace, exit := some r.code }

/-! ## Argument parsing (lines 64-113) -/

/-- The byte at offset `k` of a C string; past its end stands the terminating NUL. -/
def charAt (s : List Nat) (k : Nat) : Nat := s.getD k 0

/-- The function `isspace` of `<ctype.h>` in the "C" locale: space, and tab to carriage
return. -/
def isspace (c : Nat) : Bool := c == 32 || (9 ≤ c && c ≤ 13)

/-- The largest `long` (Linux, 64 bit). -/
def LONG_MAX : Int := 2 ^ 63 - 1

/-- The smallest `long` (Linux, 64 bit). -/
def LONG_MIN : Int := -(2 ^ 63)

/-- The digit loop of `strtol` in base 10: the number read so far is `acc`; reading stops at
the first byte that is not a digit. -/
def strtolDigits : List Nat → Nat → Nat
  | [], acc => acc
  | c :: rest, acc =>
    if 48 ≤ c ∧ c ≤ 57 then strtolDigits rest (acc * 10 + (c - 48)) else acc

/-- The function `strtol(nptr, NULL, 10)` of `<stdlib.h>`: white space is skipped, then an
optional sign and the decimal digits are read; without digits the value is 0; a value out
of the range of `long` is replaced by `LONG_MIN` or `LONG_MAX`. -/
def strtol (nptr : List Nat) : Int :=
  match (cstr nptr).dropWhile isspace with
  | [] => 0
  | c :: rest =>
    if c = 45 then max LONG_MIN (-(strtolDigits rest 0 : Int))
    else if c = 43 then min LONG_MAX (strtolDigits rest 0 : Int)
    else min LONG_MAX (strtolDigits (c :: rest) 0 : Int)

/-- The conversion of a `long` to the 32-bit `int` it is assigned to: the value modulo
`2 ^ 32`, in the range of `int`. -/
def toInt32 (x : Int) : Int := (x + 2 ^ 31) % 2 ^ 32 - 2 ^ 31

/-- The initial values of the variables of `main` (lines 52-58). -/
def initial : Config :=
  { print_model := false, print_serial := false, verbose := false, polling_wait := 250000,
    sig := none, device := none, retries := -1 }

/-- How argument parsing ends. -/
inductive ParseResult where
  /-- The loop of line 72 has run to its end. -/
  | ok (cfg : Config)
  /-- The message `Insufficient parameters` and `exit(EXIT_ERROR)`. -/
  | insufficient
  /-- The message `Unknown parameter` (line 109) and `exit(EXIT_ERROR)`. -/
  | unknown (arg : List Nat)
  /-- An entry of `argv` at an index not below `argc` has been read. -/
  | fault
  /-- The iterations allowed are used up. -/
  | unfinished
deriving DecidableEq, Repr

/-- The variables of the parsing loop: the index `i`, the settings made so far, and the
indices of the entries of `argv` that have been read. -/
structure ParseState where
  /-- The loop variable `i`. -/
  i : Nat
  /-- The settings made so far. -/
  cfg : Config
  /-- The indices at which `argv` has been read, in order. -/
  reads : List Nat
deriving DecidableEq, Repr

/-- The end of argument parsing, with the indices at which `argv` has been read. -/
structure ParseOut where
  /-- The indices at which `argv` has been read, in order. -/
  reads : List Nat
  /-- How parsing ends. -/
  result : ParseResult
deriving DecidableEq, Repr

/-- The body shared by the cases `d`, `s`, `p` and `r` (lines 89-90, 94-95, 99-100, 104-105):
`if (i >= parameter_limit) { ...; exit(EXIT_ERROR); }`, then the value `argv[++i]` is stored
by `set`, and the `i++` of the loop follows. Here `parameter_limit = argc - 1`. -/
def takeValue (argv : List (List Nat)) (s : ParseState) (reads : List Nat)
    (set : List Nat → Config) : ParseState ⊕ ParseOut :=
  if (argv.length : Int) - 1 ≤ (s.i : Int) then
    Sum.inr { reads := reads, result := ParseResult.insufficient }
  else
    match argv.get? (s.i + 1) with
    | none => Sum.inr { reads := reads ++ [s.i + 1], result := ParseResult.fault }
    | some v => Sum.inl { i := s.i + 2, cfg := set v, reads := reads ++ [s.i + 1] }

/-- One iteration of the loop of lines 72-113 at index `i`, with the `i++` that follows. -/
def parseStep (argv : List (List Nat)) (s : ParseState) : ParseState ⊕ ParseOut :=
  match argv.get? s.i with
  | none => Sum.inr { reads := s.reads ++ [s.i], result := ParseResult.fault }
  | some a =>
    let reads := s.reads ++ [s.i]
    if charAt a 0 = 45 then
      if charAt a 1 = 118 then
        Sum.inl { i := s.i + 1, cfg := { s.cfg with verbose := true }, reads := reads }
      else if charAt a 1 = 83 then
        Sum.inl { i := s.i + 1, cfg := { s.cfg with print_serial := true }, reads := reads }
      else if charAt a 1 = 77 then
        Sum.inl { i := s.i + 1, cfg := { s.cfg with print_model := true }, reads := reads }
      else if charAt a 1 = 100 then
        takeValue argv s reads (fun v => { s.cfg with device := some v })
      else if charAt a 1 = 115 then
        takeValue argv s reads (fun v => { s.cfg with sig := some v })
      else if charAt a 1 = 112 then
        takeValue argv s reads
          (fun v => { s.cfg with polling_wait := toInt32 (strtol v * 1000) })
      else if charAt a 1 = 114 then
        takeValue argv s reads (fun v => { s.cfg with retries := toInt32 (strtol v) })
      else
        Sum.inr { reads := reads, result := ParseResult.unknown a }
    else
      Sum.inl { i := s.i + 1, cfg := s.cfg, reads := reads }

/-- The loop `for (i = 1; i < argc; i++)` of lines 72-113, run for at most `fuel`
iterations; `argc` is the length of `argv`. -/
def parseLoop (argv : List (List Nat)) : Nat → ParseState → ParseOut
  | 0, s => { reads := s.reads, result := ParseResult.unfinished }
  | fuel + 1, s =>
    if s.i < argv.length then
      match parseStep argv s with
      | Sum.inl s' => parseLoop argv fuel s'
      | Sum.inr out => out
    else
      { reads := s.reads, result := ParseResult.ok s.cfg }

/-- Lines 70-113: the parsing loop from `i = 1` with the initial settings; `argc` iterations
are enough, as every iteration advances `i`. -/
def parseArgs (argv : List (List Nat)) : ParseOut :=
  parseLoop argv argv.length { i := 1, cfg := initial, reads := [] }

/-- The usage line of line 65, written when `argc < 2`. -/
def usage (argv0 : Option (List Nat)) : List Nat :=
  fmtS argv0 ++ bytes " -d <filename or device to monitor for> [-v] [-M (print model)] [-S (print serial)] [-s <signature>] [-p <polling time (milliseconds)>] [-r <retries>]\n"

/-- The program `main(argc, argv)`, the polling loop run for at most `fuel` iterations. -/
def main (argv : List (List Nat)) (env : Env) (fuel : Nat) : Run :=
  if argv.length < 2 then
    { trace := [Event.out (usage argv.head?)], exit := some EXIT_ERROR }
  else
    match (parseArgs argv).result with
    | ParseResult.ok cfg => run cfg env fuel
    | ParseResult.insufficient =>
      { trace := [Event.err (bytes "Insufficient parameters\n")], exit := some EXIT_ERROR }
    | ParseResult.unknown a =>
      { trace := [Event.err (bytes "Unknown parameter '" ++ cstr a ++ bytes "'\n")],
        exit := some EXIT_ERROR }
    | ParseResult.fault => { trace := [], exit := none }
    | ParseResult.unfinished => { trace := [], exit := none }

/-! ## Command lines in the words of the specification -/

/-- Whether an argument is the option with letter `c`: it begins with `-` and its next
character is `c`. -/
def isOption (a : List Nat) (c : Nat) : Bool := charAt a 0 == 45 && charAt a 1 == c

/-- Whether an argument is one of the options `-d`, `-s`, `-p`, `-r`, which consume the
next argument as their value. -/
def takesValue (a : List Nat) : Bool :=
  isOption a 100 || isOption a 115 || isOption a 112 || isOption a 114

/-- Whether an argument is one of the options `-v`, `-S`, `-M`. -/
def isFlag (a : List Nat) : Bool := isOption a 118 || isOption a 83 || isOption a 77

/-- Whether an argument is an unrecognized option: it begins with `-` and its next
character is not one of `v`, `S`, `M`, `d`, `s`, `p`, `r`. -/
def isUnknownOption (a : List Nat) : Bool :=
  charAt a 0 == 45 && !(isFlag a) && !(takesValue a)

/-- The arguments in option position: those that are not consumed as the value of `-d`,
`-s`, `-p` or `-r`. The list is the command line after the program name. -/
def optionArgs : List (List Nat) → List (List Nat)
  | [] => []
  | [a] => [a]
  | a :: v :: rest =>
    if takesValue a then a :: optionArgs rest else a :: optionArgs (v :: rest)

/-- Whether the last argument is `-d`, `-s`, `-p` or `-r` in option position: its value is
missing. The list is the command line after the program name. -/
def valueMissing : List (List Nat) → Bool
  | [] => false
  | [a] => takesValue a
  | a :: v :: rest => if takesValue a then valueMissing rest else valueMissing (v :: rest)

/-- The digits of `m` in base 10 put in front of `tail`, most significant first; `fuel`
bounds the number of digits. -/
def decimalAux : Nat → Nat → List Nat → List Nat
  | 0, _, tail => tail
  | fuel + 1, m, tail =>
    if m < 10 then (m + 48) :: tail
    else decimalAux fuel (m / 10) ((m % 10 + 48) :: tail)

/-- The decimal numeral of a natural number, as ASCII digits. -/
def decimal (m : Nat) : List Nat := decimalAux (m + 1) m []

/-- Argument parsing by recursion on the arguments that are left, for the proofs: the
result of the parsing loop from index `i` is that of `parseFrom` on the arguments from `i`
on. -/
def parseFrom : List (List Nat) → Config → ParseResult
  | [], cfg => ParseResult.ok cfg
  | [a], cfg =>
    if charAt a 0 = 45 then
      if charAt a 1 = 118 then ParseResult.ok { cfg with verbose := true }
      else if charAt a 1 = 83 then ParseResult.ok { cfg with print_serial := true }
      else if charAt a 1 = 77 then ParseResult.ok { cfg with print_model := true }
      else if charAt a 1 = 100 then ParseResult.insufficient
      else if charAt a 1 = 115 then ParseResult.insufficient
      else if charAt a 1 = 112 then ParseResult.insufficient
      else if charAt a 1 = 114 then ParseResult.insufficient
      else ParseResult.unknown a
    else ParseResult.ok cfg
  | a :: v :: rest, cfg =>
    if charAt a 0 = 45 then
      if charAt a 1 = 118 then parseFrom (v :: rest) { cfg with verbose := true }
      else if charAt a 1 = 83 then parseFrom (v :: rest) { cfg with print_serial := true }
      else if charAt a 1 = 77 then parseFrom (v :: rest) { cfg with print_model := true }
      else if charAt a 1 = 100 then parseFrom rest { cfg with device := some v }
      else if charAt a 1 = 115 then parseFrom rest { cfg with sig := some v }
      else if charAt a 1 = 112 then
        parseFrom rest { cfg with polling_wait := toInt32 (strtol v * 1000) }
      else if charAt a 1 = 114 then parseFrom rest { cfg with retries := toInt32 (strtol v) }
      else ParseResult.unknown a
    else parseFrom (v :: rest) cfg

/-! ## The data line in the words of the specification -/

/-- The data line as the specification words it: the two display strings joined by a single
`-` and followed by a newline when both are requested, the one requested and a newline when
only one is, nothing when none is. -/
def specDataLine (wantModel wantSerial : Bool) (modelDisplay serialDisplay : List Nat) :
    List Nat :=
  match wantModel, wantSerial with
  | true, true => modelDisplay ++ bytes "-" ++ serialDisplay ++ bytes "\n"
  | true, false => modelDisplay ++ bytes "\n"
  | false, true => serialDisplay ++ bytes "\n"
  | false, false => []

/-! ## Sample configurations and environments -/

/-- The configuration of `waitfordevice -d /dev/sde`: every other variable keeps its
initial value. -/
def defaults : Config :=
  { print_model := false, print_serial := false, verbose := false, polling_wait := 250000,
    sig := none, device := some (bytes "/dev/sde"), retries := -1 }

/-- The configuration of `waitfordevice -d /dev/sde -M -S -s ST`. -/
def printAndVerify : Config :=
  { defaults with print_model := true, print_serial := true, sig := some (bytes "ST") }

/-- A list cut or filled with NUL bytes to the length `n`. -/
def padTo (n : Nat) (l : List Nat) : List Nat := (l ++ List.replicate n 0).take n

/-- The 512 bytes of a `struct hd_driveid` with the given contents of `serial_no`, of the
six bytes of `buf_type`, `buf_size`, `ecc_bytes`, of `fw_rev` and of `model`; every member
is filled with NUL bytes to its size and all other members are 0. -/
def hdImage (serial_no buf fw_rev model : List Nat) : List Nat :=
  List.replicate 20 0 ++ padTo 20 serial_no ++ padTo 6 buf ++ padTo 8 fw_rev ++
    padTo 40 model ++ List.replicate 418 0

/-- A drive that appears after `m` failed existence checks, opens, and identifies itself as
model `ST-1000`, serial `SN#42`, both followed by NUL bytes in their fields. -/
def driveAfter (m : Nat) : Env :=
  { access := fun i => if i < m then -1 else 0, openFd := 3, ioctlRet := 0, errno := 0,
    hd := hdImage (bytes "SN#42") [] [] (bytes "ST-1000") }

/-- A path that never appears. -/
def neverThere : Env :=
  { access := fun _ => -1, openFd := -1, ioctlRet := -1, errno := 0,
    hd := List.replicate 512 0 }

/-- A drive that is there at once and opens, whose model field holds the bytes `A`, NUL,
`B` and then NUL bytes, and whose serial field holds `SN` and NUL bytes. -/
def nulDrive : Env :=
  { access := fun _ => 0, openFd := 3, ioctlRet := 0, errno := 0,
    hd := hdImage (bytes "SN") [] [] [65, 0, 66] }

/-- A drive that is there at once and opens, whose serial field is filled by the 20 bytes
`S1234567890123456789` without a NUL; the members after it hold `XYZ123`, the firmware
revision `FW123AB.` and the model `MODELX`. -/
def fullWidthDrive : Env :=
  { access := fun _ => 0, openFd := 3, ioctlRet := 0, errno := 0,
    hd := hdImage (bytes "S1234567890123456789") (bytes "XYZ123") (bytes "FW123AB.")
      (bytes "MODELX") }

/-- A drive that is there at once and opens, but has no identification data: the `ioctl`
fails and leaves `ENOMSG` in `errno`. -/
def noIdentity : Env :=
  { access := fun _ => 0, openFd := 3, ioctlRet := -1, errno := ENOMSG,
    hd := List.replicate 512 0 }

/-- The number of progress markers in a trace: the writes of a single `.` to stdout. -/
def markers : List Event → Nat
  | [] => 0
  | Event.out s :: t => if s = bytes "." then markers t + 1 else markers t
  | _ :: t => markers t

/-- The command line `waitfordevice -d /dev/sde`. -/
def commandLine : List (List Nat) := [bytes "waitfordevice", bytes "-d", bytes "/dev/sde"]

/-! ## Traces: counting lemmas -/

/-- The events of `m` failed attempts in a row that do not end the loop. -/
def failedAttempts (cfg : Config) : Nat → List Event
  | 0 => []
  | m + 1 => failedAttempt cfg ++ failedAttempts cfg m

theorem checks_append (a b : List Event) : checks (a ++ b) = checks a + checks b := by
  induction a with
  | nil => simp [checks]
  | cons e t ih =>
    cases e <;> simp [checks, ih]
    omega

theorem sleeps_append (a b : List Event) : sleeps (a ++ b) = sleeps a ++ sleeps b := by
  induction a with
  | nil => simp [sleeps]
  | cons e t ih => cases e <;> simp [sleeps, ih]

theorem stdout_append (a b : List Event) : stdout (a ++ b) = stdout a ++ stdout b := by
  induction a with
  | nil => simp [stdout]
  | cons e t ih => cases e <;> simp [stdout, ih]

theorem opens_append (a b : List Event) : opens (a ++ b) = opens a + opens b := by
  induction a with
  | nil => simp [opens]
  | cons e t ih =>
    cases e <;> simp [opens, ih]
    omega

theorem ioctls_append (a b : List Event) : ioctls (a ++ b) = ioctls a + ioctls b := by
  induction a with
  | nil => simp [ioctls]
  | cons e t ih =>
    cases e <;> simp [ioctls, ih]
    omega

theorem failedAttempt_counts (cfg : Config) :
    checks (failedAttempt cfg) = 1 ∧ sleeps (failedAttempt cfg) = [cfg.polling_wait] ∧
      opens (failedAttempt cfg) = 0 ∧ ioctls (failedAttempt cfg) = 0 := by
  unfold failedAttempt
  cases cfg.verbose <;> simp [checks, sleeps, opens, ioctls]

theorem failedAttempts_counts (cfg : Config) (m : Nat) :
    checks (failedAttempts cfg m) = m ∧
      sleeps (failedAttempts cfg m) = List.replicate m cfg.polling_wait ∧
      opens (failedAttempts cfg m) = 0 ∧ ioctls (failedAttempts cfg m) = 0 := by
  induction m with
  | zero => simp [failedAttempts, checks, sleeps, opens, ioctls]
  | succ m ih =>
    obtain ⟨h1, h2, h3, h4⟩ := failedAttempt_counts cfg
    obtain ⟨i1, i2, i3, i4⟩ := ih
    refine ⟨?_, ?_, ?_, ?_⟩
    · rw [failedAttempts, checks_append, h1, i1]; omega
    · rw [failedAttempts, sleeps_append, h2, i2]; rfl
    · rw [failedAttempts, opens_append, h3, i3]
    · rw [failedAttempts, ioctls_append, h4, i4]

theorem banner_counts (cfg : Config) :
    checks (banner cfg) = 0 ∧ sleeps (banner cfg) = [] ∧ opens (banner cfg) = 0 ∧
      ioctls (banner cfg) = 0 := by
  unfold banner
  cases cfg.verbose <;> cases cfg.sig <;> simp [checks, sleeps, opens, ioctls]

theorem banner_quiet (cfg : Config) (hv : cfg.verbose = false) : banner cfg = [] := by
  simp [banner, hv]

/-! ## The polling loop in closed form -/

/-- Success at the attempt after `m` failures: the loop makes the `m` failed attempts and
the successful check, provided the budget is not used up before. -/
theorem pollLoop_found (cfg : Config) (env : Env) (m : Nat) :
    ∀ (fuel i : Nat) (retries : Int),
      (∀ j, j < m → env.access (i + j) ≠ 0) → env.access (i + m) = 0 →
      (retries ≤ 0 ∨ (m : Int) < retries) → m < fuel →
      pollLoop cfg env fuel i retries =
        { trace := failedAttempts cfg m ++ [Event.access cfg.device],
          status := PollStatus.found,
          retries := if 0 < retries then retries - m else retries } := by
  induction m with
  | zero =>
    intro fuel i retries _ hok _ hfuel
    obtain ⟨f, rfl⟩ : ∃ f, fuel = f + 1 := ⟨fuel - 1, by omega⟩
    have hok0 : env.access i = 0 := by simpa using hok
    simp [pollLoop, hok0, failedAttempts]
  | succ m ih =>
    intro fuel i retries hfail hok hbudget hfuel
    obtain ⟨f, rfl⟩ : ∃ f, fuel = f + 1 := ⟨fuel - 1, by omega⟩
    have h0 : env.access i ≠ 0 := by simpa using hfail 0 (by omega)
    have hfail1 : ∀ j, j < m → env.access (i + 1 + j) ≠ 0 := by
      intro j hj
      have := hfail (j + 1) (by omega)
      rwa [show i + (j + 1) = i + 1 + j by omega] at this
    have hok1 : env.access (i + 1 + m) = 0 := by
      rwa [show i + (m + 1) = i + 1 + m by omega] at hok
    by_cases hr : 0 < retries
    · have hne : retries ≠ 1 := by omega
      have hrec := ih f (i + 1) (retries - 1) hfail1 hok1 (Or.inr (by omega)) (by omega)
      have hpos : 0 < retries - 1 := by omega
      simp only [pollLoop, h0, hr, hne, if_false, if_true, hrec, hpos]
      simp [failedAttempts, failedAttempt]
      omega
    · have hrec := ih f (i + 1) retries hfail1 hok1 (Or.inl (by omega)) (by omega)
      simp only [pollLoop, h0, hr, if_false, hrec]
      simp [failedAttempts, failedAttempt]

/-- Give-up: with `m + 1` retries left and `m + 1` failing checks ahead, the loop makes `m`
failed attempts, then one more check, and exits at line 130 without sleeping. -/
theorem pollLoop_gaveUp (cfg : Config) (env : Env) (m : Nat) :
    ∀ (fuel i : Nat),
      (∀ j, j ≤ m → env.access (i + j) ≠ 0) → m < fuel →
      pollLoop cfg env fuel i (m + 1 : Nat) =
        { trace := failedAttempts cfg m ++
            (Event.access cfg.device ::
              ((if cfg.verbose then [Event.out (bytes ".")] else []) ++
                [Event.out (bytes "No device found\n")])),
          status := PollStatus.gaveUp,
          retries := 1 } := by
  induction m with
  | zero =>
    intro fuel i hfail hfuel
    obtain ⟨f, rfl⟩ : ∃ f, fuel = f + 1 := ⟨fuel - 1, by omega⟩
    have h0 : env.access i ≠ 0 := by simpa using hfail 0 (by omega)
    simp [pollLoop, h0, failedAttempts]
  | succ m ih =>
    intro fuel i hfail hfuel
    obtain ⟨f, rfl⟩ : ∃ f, fuel = f + 1 := ⟨fuel - 1, by omega⟩
    have h0 : env.access i ≠ 0 := by simpa using hfail 0 (by omega)
    have hfail1 : ∀ j, j ≤ m → env.access (i + 1 + j) ≠ 0 := by
      intro j hj
      have := hfail (j + 1) (by omega)
      rwa [show i + (j + 1) = i + 1 + j by omega] at this
    have hrec := ih f (i + 1) hfail1 (by omega)
    have hr : (0 : Int) < ((m + 1 + 1 : Nat) : Int) := by omega
    have hne : ((m + 1 + 1 : Nat) : Int) ≠ 1 := by omega
    have hsub : ((m + 1 + 1 : Nat) : Int) - 1 = ((m + 1 : Nat) : Int) := by omega
    simp only [pollLoop, h0, hr, hne, if_false, if_true, hsub, hrec]
    simp [failedAttempts, failedAttempt]

/-- Without a positive budget the loop keeps polling: after `N` failed checks it has made
`N` failed attempts and is back at the head of the loop, `retries` unchanged. -/
theorem pollLoop_polling (cfg : Config) (env : Env) (N : Nat) :
    ∀ (i : Nat) (retries : Int), retries ≤ 0 →
      (∀ j, j < N → env.access (i + j) ≠ 0) →
      pollLoop cfg env N i retries =
        { trace := failedAttempts cfg N, status := PollStatus.polling, retries := retries } := by
  induction N with
  | zero => intro i retries _ _; simp [pollLoop, failedAttempts]
  | succ N ih =>
    intro i retries hr hfail
    have h0 : env.access i ≠ 0 := by simpa using hfail 0 (by omega)
    have hfail1 : ∀ j, j < N → env.access (i + 1 + j) ≠ 0 := by
      intro j hj
      have := hfail (j + 1) (by omega)
      rwa [show i + (j + 1) = i + 1 + j by omega] at this
    have hnr : ¬ (0 < retries) := by omega
    simp only [pollLoop, h0, hnr, if_false, ih (i + 1) retries hr hfail1]
    simp [failedAttempts, failedAttempt]

/-- Without a positive budget the loop never gives up, whatever `access` returns. -/
theorem pollLoop_never_gaveUp (cfg : Config) (env : Env) (fuel : Nat) :
    ∀ (i : Nat) (retries : Int), retries ≤ 0 →
      (pollLoop cfg env fuel i retries).status ≠ PollStatus.gaveUp := by
  induction fuel with
  | zero => intro i retries _; simp [pollLoop]
  | succ f ih =>
    intro i retries hr
    have hnr : ¬ (0 < retries) := by omega
    by_cases h0 : env.access i = 0
    · simp [pollLoop, h0]
    · simp only [pollLoop, h0, hnr, if_false]
      exact ih (i + 1) retries hr

/-- The polling loop neither opens the device nor queries it. -/
theorem pollLoop_no_open (cfg : Config) (env : Env) (fuel : Nat) :
    ∀ (i : Nat) (retries : Int),
      opens (pollLoop cfg env fuel i retries).trace = 0 ∧
        ioctls (pollLoop cfg env fuel i retries).trace = 0 := by
  induction fuel with
  | zero => intro i retries; simp [pollLoop, opens, ioctls]
  | succ f ih =>
    intro i retries
    have hdot : ∀ (t : List Event),
        opens ((if cfg.verbose then [Event.out (bytes ".")] else []) ++ t) = opens t ∧
        ioctls ((if cfg.verbose then [Event.out (bytes ".")] else []) ++ t) = ioctls t := by
      intro t; cases cfg.verbose <;> simp [opens, ioctls]
    simp only [pollLoop]
    split
    · simp [opens, ioctls]
    · split
      · split
        · simp [opens, ioctls, (hdot _).1, (hdot _).2]
        · simp [opens, ioctls, (hdot _).1, (hdot _).2, ih]
      · simp [opens, ioctls, (hdot _).1, (hdot _).2, ih]

/-- With the verbose flag off, a loop that has not given up has written nothing. -/
theorem pollLoop_quiet (cfg : Config) (env : Env) (hv : cfg.verbose = false) (fuel : Nat) :
    ∀ (i : Nat) (retries : Int),
      (pollLoop cfg env fuel i retries).status ≠ PollStatus.gaveUp →
      stdout (pollLoop cfg env fuel i retries).trace = [] := by
  induction fuel with
  | zero => intro i retries _; simp [pollLoop, stdout]
  | succ f ih =>
    intro i retries
    simp only [pollLoop, hv]
    split
    · simp [stdout]
    · split
      · split
        · simp
        · intro h; simpa [stdout] using ih _ _ h
      · intro h; simpa [stdout] using ih _ _ h

/-- The identification stage makes no existence check and never sleeps. -/
theorem inspect_no_poll (cfg : Config) (env : Env) :
    checks (inspect cfg env).trace = 0 ∧ sleeps (inspect cfg env).trace = [] := by
  unfold inspect afterIoctl dataOutput
  cases cfg.verbose <;> cases cfg.print_model <;> cases cfg.print_serial <;>
    cases cfg.sig <;> simp [checks, sleeps] <;> (repeat' split) <;> simp [checks, sleeps]

/-- The identification stage ends with one of the codes 0, 1 and 2. -/
theorem inspect_code (cfg : Config) (env : Env) :
    (inspect cfg env).code = EXIT_NORMAL ∨ (inspect cfg env).code = EXIT_ERROR ∨
      (inspect cfg env).code = EXIT_SIGNATURE_MISSMATCH := by
  unfold inspect afterIoctl
  cases cfg.sig <;> simp <;> (repeat' split) <;> simp

/-- Once the loop has found the path, the program goes on with the identification stage. -/
theorem run_found (cfg : Config) (env : Env) (fuel : Nat)
    (h : (pollLoop cfg env fuel 0 cfg.retries).status = PollStatus.found) :
    run cfg env fuel =
      { trace := banner cfg ++ (pollLoop cfg env fuel 0 cfg.retries).trace ++ (inspect cfg env).trace,
        exit := some (inspect cfg env).code } := by
  simp [run, h]

/-! ## The polling loop: success, give-up, waiting forever -/

/-- C1 (polling success). If the first existence check that succeeds is attempt `k ≥ 1`
and the retry budget is absent (`retries` keeps its default `-1`) or is a finite `n ≥ k`,
then, for every interval and every number `fuel ≥ k` of iterations allowed, the polling loop
makes exactly `k` existence checks and exactly `k - 1` sleeps, each of `polling_wait`, and
leaves the loop through `break`: the program does not give up and goes on to open the
device. -/
theorem C1_polling_success (cfg : Config) (env : Env) (k fuel : Nat)
    (hk : 1 ≤ k)
    (hfail : ∀ j, j + 1 < k → env.access j ≠ 0)
    (hfound : env.access (k - 1) = 0)
    (hbudget : cfg.retries = -1 ∨ (k : Int) ≤ cfg.retries)
    (hfuel : k ≤ fuel) :
    (pollLoop cfg env fuel 0 cfg.retries).status = PollStatus.found ∧
      checks (pollLoop cfg env fuel 0 cfg.retries).trace = k ∧
      sleeps (pollLoop cfg env fuel 0 cfg.retries).trace =
        List.replicate (k - 1) cfg.polling_wait ∧
      checks (run cfg env fuel).trace = k ∧
      sleeps (run cfg env fuel).trace = List.replicate (k - 1) cfg.polling_wait ∧
      (run cfg env fuel).exit = some (inspect cfg env).code ∧
      (run cfg env fuel).exit ≠ some EXIT_GIVEUP := by
  have hloop := pollLoop_found cfg env (k - 1) fuel 0 cfg.retries
    (by intro j hj; simpa using hfail j (by omega))
    (by simpa using hfound)
    (by rcases hbudget with h | h
        · left; omega
        · right; omega)
    (by omega)
  obtain ⟨c1, c2, -, -⟩ := failedAttempts_counts cfg (k - 1)
  have hstatus : (pollLoop cfg env fuel 0 cfg.retries).status = PollStatus.found := by
    rw [hloop]
  have hchecks : checks (pollLoop cfg env fuel 0 cfg.retries).trace = k := by
    rw [hloop]; simp only [checks_append, c1, checks]; omega
  have hsleeps : sleeps (pollLoop cfg env fuel 0 cfg.retries).trace =
      List.replicate (k - 1) cfg.polling_wait := by
    rw [hloop]; simp [sleeps_append, c2, sleeps]
  obtain ⟨n1, n2⟩ := inspect_no_poll cfg env
  have hcode : (inspect cfg env).code ≠ EXIT_GIVEUP := by
    rcases inspect_code cfg env with h | h | h <;> rw [h] <;> decide
  obtain ⟨b1, b2, -, -⟩ := banner_counts cfg
  rw [run_found cfg env fuel hstatus]
  refine ⟨hstatus, hchecks, hsleeps, ?_, ?_, rfl, ?_⟩
  · simp only [checks_append, b1, hchecks, n1]; omega
  · simp only [sleeps_append, b2, hsleeps, n2]; simp
  · simpa using hcode

/-- Witness of C1: with the defaults, a drive that appears at the third check is found
after three checks and two sleeps of 250000 microseconds. -/
theorem C1_polling_success_witness :
    (pollLoop defaults (driveAfter 2) 3 0 defaults.retries).status = PollStatus.found ∧
      checks (pollLoop defaults (driveAfter 2) 3 0 defaults.retries).trace = 3 ∧
      sleeps (pollLoop defaults (driveAfter 2) 3 0 defaults.retries).trace =
        List.replicate (3 - 1) defaults.polling_wait ∧
      checks (run defaults (driveAfter 2) 3).trace = 3 ∧
      sleeps (run defaults (driveAfter 2) 3).trace =
        List.replicate (3 - 1) defaults.polling_wait ∧
      (run defaults (driveAfter 2) 3).exit = some (inspect defaults (driveAfter 2)).code ∧
      (run defaults (driveAfter 2) 3).exit ≠ some EXIT_GIVEUP :=
  C1_polling_success defaults (driveAfter 2) 3 3 (by decide)
    (by intro j hj; have : j < 2 := by omega
        simp [driveAfter, this])
    (by simp [driveAfter]) (Or.inl rfl) (by decide)

/-- C2 (give-up). With a retry budget `n ≥ 1` and a path that is missing at each of the
first `n` checks, the program makes exactly `n` existence checks and `n - 1` sleeps of
`polling_wait`, then exits with code 3: the last thing it does is print the give-up message
(no further sleep), and it neither opens nor queries the device. -/
theorem C2_give_up (cfg : Config) (env : Env) (n fuel : Nat)
    (hn : 1 ≤ n)
    (hbudget : cfg.retries = (n : Int))
    (hfail : ∀ j, j < n → env.access j ≠ 0)
    (hfuel : n ≤ fuel) :
    (run cfg env fuel).exit = some 3 ∧
      checks (run cfg env fuel).trace = n ∧
      sleeps (run cfg env fuel).trace = List.replicate (n - 1) cfg.polling_wait ∧
      (run cfg env fuel).trace.getLast? = some (Event.out (bytes "No device found\n")) ∧
      opens (run cfg env fuel).trace = 0 ∧
      ioctls (run cfg env fuel).trace = 0 := by
  obtain ⟨m, rfl⟩ : ∃ m, n = m + 1 := ⟨n - 1, by omega⟩
  have hloop := pollLoop_gaveUp cfg env m fuel 0
    (by intro j hj; simpa using hfail j (by omega)) (by omega)
  rw [← hbudget] at hloop
  obtain ⟨c1, c2, c3, c4⟩ := failedAttempts_counts cfg m
  obtain ⟨b1, b2, b3, b4⟩ := banner_counts cfg
  have hrun : run cfg env fuel =
      { trace := banner cfg ++ (pollLoop cfg env fuel 0 cfg.retries).trace,
        exit := some EXIT_GIVEUP } := by
    simp [run, hloop]
  rw [hrun, hloop]
  refine ⟨rfl, ?_, ?_, ?_, ?_, ?_⟩
  · simp only [checks_append, b1, c1]
    cases cfg.verbose <;> simp [checks]
  · simp only [sleeps_append, b2, c2]
    cases cfg.verbose <;> simp [sleeps]
  · cases cfg.verbose <;> simp [List.getLast?_append, List.getLast?_cons_cons]
  · simp only [opens_append, b3, c3]
    cases cfg.verbose <;> simp [opens]
  · simp only [ioctls_append, b4, c4]
    cases cfg.verbose <;> simp [ioctls]

/-- Witness of C2: `-r 3` on a path that never appears gives three checks, two sleeps and
exit code 3. -/
theorem C2_give_up_witness :
    (run { defaults with retries := 3 } neverThere 3).exit = some 3 ∧
      checks (run { defaults with retries := 3 } neverThere 3).trace = 3 ∧
      sleeps (run { defaults with retries := 3 } neverThere 3).trace =
        List.replicate (3 - 1) 250000 ∧
      (run { defaults with retries := 3 } neverThere 3).trace.getLast? =
        some (Event.out (bytes "No device found\n")) ∧
      opens (run { defaults with retries := 3 } neverThere 3).trace = 0 ∧
      ioctls (run { defaults with retries := 3 } neverThere 3).trace = 0 :=
  C2_give_up { defaults with retries := 3 } neverThere 3 3 (by decide) rfl
    (by intro j _; show (-1 : Int) ≠ 0; decide) (by decide)

/-- C3 (wait forever). When `retries` keeps its default `-1` and the path is missing at
each of the first `N` checks, then after `N` iterations the program has made `N` existence
checks and `N` sleeps of `polling_wait`, has not exited and is back at the head of the loop;
and it does not give up after any number of iterations, whatever the checks return. -/
theorem C3_wait_forever (cfg : Config) (env : Env) (N : Nat)
    (hdefault : cfg.retries = -1)
    (hfail : ∀ j, j < N → env.access j ≠ 0) :
    (pollLoop cfg env N 0 cfg.retries).status = PollStatus.polling ∧
      checks (run cfg env N).trace = N ∧
      sleeps (run cfg env N).trace = List.replicate N cfg.polling_wait ∧
      (run cfg env N).exit = none ∧
      ∀ fuel, (run cfg env fuel).exit ≠ some EXIT_GIVEUP := by
  have hloop := pollLoop_polling cfg env N 0 cfg.retries (by omega)
    (by intro j hj; simpa using hfail j hj)
  obtain ⟨c1, c2, -, -⟩ := failedAttempts_counts cfg N
  obtain ⟨b1, b2, -, -⟩ := banner_counts cfg
  have hrun : run cfg env N = { trace := banner cfg ++ failedAttempts cfg N, exit := none } := by
    simp [run, hloop]
  refine ⟨by rw [hloop], ?_, ?_, by rw [hrun], ?_⟩
  · rw [hrun]; simp only [checks_append, b1, c1]; omega
  · rw [hrun]; simp only [sleeps_append, b2, c2]; simp
  · intro fuel
    have hnever := pollLoop_never_gaveUp cfg env fuel 0 cfg.retries (by omega)
    have hcode : (inspect cfg env).code ≠ EXIT_GIVEUP := by
      rcases inspect_code cfg env with h | h | h <;> rw [h] <;> decide
    cases hs : (pollLoop cfg env fuel 0 cfg.retries).status with
    | found => rw [run_found cfg env fuel hs]; simpa using hcode
    | gaveUp => exact absurd hs hnever
    | polling => simp [run, hs]

/-- Witness of C3: with the defaults, five failed checks leave the program polling. -/
theorem C3_wait_forever_witness :
    (pollLoop defaults neverThere 5 0 defaults.retries).status = PollStatus.polling ∧
      checks (run defaults neverThere 5).trace = 5 ∧
      sleeps (run defaults neverThere 5).trace = List.replicate 5 defaults.polling_wait ∧
      (run defaults neverThere 5).exit = none ∧
      ∀ fuel, (run defaults neverThere fuel).exit ≠ some EXIT_GIVEUP :=
  C3_wait_forever defaults neverThere 5 rfl (by intro j _; show (-1 : Int) ≠ 0; decide)

/-! ## Strings: the C string of a buffer, the filter, the search -/

theorem cstr_eq_self (l : List Nat) (h : 0 ∉ l) : cstr l = l := by
  induction l with
  | nil => rfl
  | cons c t ih =>
    have hc : c ≠ 0 := fun e => h (by simp [e])
    have ht : 0 ∉ t := fun e => h (by simp [e])
    simp [cstr, hc, ih ht]

theorem printAlnum_eq_filter_cstr (raw : List Nat) :
    printAlnum raw = (cstr raw).filter isalnum := by
  induction raw with
  | nil => rfl
  | cons c t ih =>
    by_cases hc : c = 0
    · simp [printAlnum, cstr, hc]
    · by_cases ha : isalnum c = true
      · simp [printAlnum, cstr, hc, ha, ih]
      · simp [printAlnum, cstr, hc, ha, ih]

theorem startsWith_iff (hay needle : List Nat) :
    startsWith hay needle = true ↔ needle <+: hay := by
  induction needle generalizing hay with
  | nil => simp [startsWith]
  | cons n ns ih =>
    cases hay with
    | nil => simp [startsWith]
    | cons h hs =>
      simp only [startsWith, Bool.and_eq_true, beq_iff_eq, ih, List.cons_prefix_cons]
      constructor <;> rintro ⟨h1, h2⟩ <;> exact ⟨h1.symm, h2⟩

theorem strstrAux_isSome (hay needle : List Nat) :
    (strstrAux hay needle).isSome = true ↔ needle <:+: hay := by
  induction hay with
  | nil =>
    unfold strstrAux
    cases needle <;> simp [startsWith]
  | cons a t ih =>
    unfold strstrAux
    by_cases hp : startsWith (a :: t) needle = true
    · simp only [hp, if_true, Option.isSome_some, true_iff]
      exact ((startsWith_iff _ _).1 hp).isInfix
    · have hnp : ¬ needle <+: a :: t := fun h => hp ((startsWith_iff _ _).2 h)
      simp [hp, ih, List.infix_cons_iff, hnp]

/-- The search `strstr` finds the needle exactly when the needle's C string is a contiguous part of
the haystack's C string. -/
theorem strstr_isNone (haystack needle : List Nat) :
    (strstr haystack needle).isNone = true ↔ ¬ cstr needle <:+: cstr haystack := by
  rw [← strstrAux_isSome, strstr]
  cases strstrAux (cstr haystack) (cstr needle) <;> simp

/-- When a NUL byte lies among the first `n` bytes of a buffer, the C string at the start
of the buffer is that of its first `n` bytes. -/
theorem cstr_take (l : List Nat) : ∀ n, 0 ∈ l.take n → cstr l = cstr (l.take n) := by
  induction l with
  | nil => intro n _; simp
  | cons c t ih =>
    intro n h
    cases n with
    | zero => simp at h
    | succ k =>
      by_cases hc : c = 0
      · simp [cstr, hc]
      · have ht : 0 ∈ t.take k := by
          rcases List.mem_cons.1 (by simpa using h) with h0 | h0
          · exact absurd h0.symm hc
          · exact h0
        simp [cstr, hc, ← ih k ht]

/-- When the model field holds a NUL byte, the string read at `hd.model` ends inside the
field. -/
theorem cstr_model (env : Env) (h : 0 ∈ env.modelField) :
    cstr env.model = cstr env.modelField :=
  cstr_take env.model 40 h

/-- When the serial field holds a NUL byte, the string read at `hd.serial_no` ends inside
the field. -/
theorem cstr_serial_no (env : Env) (h : 0 ∈ env.serialField) :
    cstr env.serial_no = cstr env.serialField :=
  cstr_take env.serial_no 20 h

/-! ## Identification: exit codes and output -/

/-- When `open` succeeds the program queries the device and goes on according to the
result. -/
theorem inspect_opened (cfg : Config) (env : Env) (hopen : 0 ≤ env.openFd) :
    inspect cfg env =
      { trace := Event.openDevice cfg.device :: Event.ioctl :: (afterIoctl cfg env).trace,
        code := (afterIoctl cfg env).code } := by
  have h : ¬ env.openFd < 0 := by omega
  simp [inspect, h]

/-- The exit code after a successful identity query with a signature to verify. -/
theorem afterIoctl_code_sig (cfg : Config) (env : Env) (s : List Nat)
    (hsig : cfg.sig = some s) (hid : env.ioctlRet = 0) :
    (afterIoctl cfg env).code =
      if cstr s <:+: cstr env.model ∨ cstr s <:+: cstr env.serial_no then EXIT_NORMAL
      else EXIT_SIGNATURE_MISSMATCH := by
  have hm := strstr_isNone env.model s
  have hs := strstr_isNone env.serial_no s
  by_cases h1 : cstr s <:+: cstr env.model
  · have : (strstr env.model s).isNone = false := by
      cases h : (strstr env.model s).isNone
      · rfl
      · exact absurd h1 (hm.1 h)
    simp [afterIoctl, hid, hsig, h1, this]
  · by_cases h2 : cstr s <:+: cstr env.serial_no
    · have : (strstr env.serial_no s).isNone = false := by
        cases h : (strstr env.serial_no s).isNone
        · rfl
        · exact absurd h2 (hs.1 h)
      simp [afterIoctl, hid, hsig, h2, this]
    · simp [afterIoctl, hid, hsig, h1, h2, hm.2 h1, hs.2 h2]

/-- The text of the data output is the data line of the specification, built from the two
filtered fields. -/
theorem stdout_dataOutput (cfg : Config) (env : Env) :
    stdout (dataOutput cfg env) =
      specDataLine cfg.print_model cfg.print_serial
        (printAlnum env.model) (printAlnum env.serial_no) := by
  unfold dataOutput specDataLine
  cases cfg.print_model <;> cases cfg.print_serial <;> simp [stdout]

/-- When every requested field holds a NUL byte, the data output is the data line of the
specification built from the fields: of each field the bytes before its first NUL, the
non-alphanumeric ones removed. -/
theorem dataLine_fields (cfg : Config) (env : Env)
    (hmodel : cfg.print_model = true → 0 ∈ env.modelField)
    (hserial : cfg.print_serial = true → 0 ∈ env.serialField) :
    stdout (dataOutput cfg env) =
      specDataLine cfg.print_model cfg.print_serial
        (List.filter isalnum (cstr env.modelField))
        (List.filter isalnum (cstr env.serialField)) := by
  rw [stdout_dataOutput]
  cases hM : cfg.print_model <;> cases hS : cfg.print_serial <;>
    simp only [specDataLine, printAlnum_eq_filter_cstr]
  · rw [cstr_serial_no env (hserial hS)]
  · rw [cstr_model env (hmodel hM)]
  · rw [cstr_model env (hmodel hM), cstr_serial_no env (hserial hS)]

/-- After a successful identity query the output is the data line, followed by diagnostics
only when verbose. -/
theorem stdout_afterIoctl_ok (cfg : Config) (env : Env) (hid : env.ioctlRet = 0) :
    ∃ diag, stdout (afterIoctl cfg env).trace = stdout (dataOutput cfg env) ++ diag ∧
      (cfg.verbose = false → diag = []) := by
  unfold afterIoctl
  simp only [hid, if_true]
  cases cfg.sig with
  | none =>
    cases hv : cfg.verbose
    · exact ⟨[], by simp, fun _ => rfl⟩
    · exact ⟨_, by simp only [stdout_append, if_true]; rfl, by simp⟩
  | some sig =>
    cases hv : cfg.verbose
    · refine ⟨[], ?_, fun _ => rfl⟩
      simp only []
      split <;> simp
    · simp only []
      split
      · exact ⟨_, by simp only [stdout_append, if_true, List.append_assoc]; rfl, by simp⟩
      · exact ⟨_, by simp only [stdout_append, if_true, List.append_assoc]; rfl, by simp⟩

/-! ## Signature matching -/

/-- C4, as stated, fails on a field with a NUL byte inside. The model field holds `A`, NUL,
`B`; the signature `B` is a byte-exact substring of the raw field, yet `strstr` reads the
field only up to the NUL and the program exits with code 2. -/
theorem C4_counterexample :
    ([66] <:+: nulDrive.modelField ∨ [66] <:+: nulDrive.serialField) ∧
      (run { defaults with sig := some [66] } nulDrive 1).exit = some 2 := by
  refine ⟨Or.inl ⟨[65, 0], List.replicate 37 0, by decide⟩, ?_⟩
  decide

/-- C4 (signature matching, amended). When the path has been found, the device opens, the
identity query succeeds, a signature is given and each of the two raw fields holds a NUL
byte, the program exits with code 0 if and only if the signature is a byte-exact substring
of the bytes of the raw model field before its first NUL or of the bytes of the raw serial
field before its first NUL, and with code 2 otherwise. The filtered display forms play no
part. -/
theorem C4_signature_match (cfg : Config) (env : Env) (s : List Nat) (fuel : Nat)
    (hsig : cfg.sig = some s)
    (hfound : (pollLoop cfg env fuel 0 cfg.retries).status = PollStatus.found)
    (hopen : 0 ≤ env.openFd)
    (hid : env.ioctlRet = 0)
    (hmodel : 0 ∈ env.modelField)
    (hserial : 0 ∈ env.serialField) :
    ((run cfg env fuel).exit = some 0 ↔
        (cstr s <:+: cstr env.modelField ∨ cstr s <:+: cstr env.serialField)) ∧
      ((run cfg env fuel).exit ≠ some 0 → (run cfg env fuel).exit = some 2) ∧
      (0 ∉ s →
        ((run cfg env fuel).exit = some 0 ↔
          (s <:+: cstr env.modelField ∨ s <:+: cstr env.serialField))) := by
  have hexit : (run cfg env fuel).exit =
      some (if cstr s <:+: cstr env.modelField ∨ cstr s <:+: cstr env.serialField then
        EXIT_NORMAL else EXIT_SIGNATURE_MISSMATCH) := by
    rw [run_found cfg env fuel hfound, inspect_opened cfg env hopen,
      afterIoctl_code_sig cfg env s hsig hid, cstr_model env hmodel,
      cstr_serial_no env hserial]
  have hiff : (run cfg env fuel).exit = some 0 ↔
      (cstr s <:+: cstr env.modelField ∨ cstr s <:+: cstr env.serialField) := by
    rw [hexit]
    by_cases h : cstr s <:+: cstr env.modelField ∨ cstr s <:+: cstr env.serialField
    · simp [h, EXIT_NORMAL]
    · simp [h, EXIT_SIGNATURE_MISSMATCH]
  refine ⟨hiff, ?_, ?_⟩
  · intro hne
    have h : ¬ (cstr s <:+: cstr env.modelField ∨ cstr s <:+: cstr env.serialField) :=
      fun h => hne (hiff.2 h)
    rw [hexit]
    simp [h, EXIT_SIGNATURE_MISSMATCH]
  · intro h1
    rw [hiff, cstr_eq_self s h1]

/-- Witness of C4: on model `ST-1000`, serial `SN#42`, the signature `1000` gives exit code
0 and `9999` gives exit code 2; `XY12` is found in `xy-XY12-99` and not in `xy1 2`. -/
theorem C4_signature_match_witness :
    (run { defaults with sig := some (bytes "1000") } (driveAfter 0) 1).exit = some 0 ∧
      (run { defaults with sig := some (bytes "9999") } (driveAfter 0) 1).exit = some 2 ∧
      (strstr (bytes "xy-XY12-99") (bytes "XY12")).isSome = true ∧
      (strstr (bytes "xy1 2") (bytes "XY12")).isNone = true :=
  ⟨(C4_signature_match { defaults with sig := some (bytes "1000") } (driveAfter 0)
      (bytes "1000") 1 rfl (by decide) (by decide) rfl (by decide) (by decide)).1.2
      (Or.inl ⟨bytes "ST-", [], by decide⟩),
    (C4_signature_match { defaults with sig := some (bytes "9999") } (driveAfter 0)
      (bytes "9999") 1 rfl (by decide) (by decide) rfl (by decide) (by decide)).2.1
      (by decide),
    by decide, by decide⟩

/-! ## Alphanumeric filtering -/

/-- C5, as stated, fails on a field with a NUL byte inside: the model field holds `A`, NUL,
`B`; the print loop stops at the NUL and writes `A`, while removing the non-alphanumeric
bytes from the field leaves `AB`. With `-M` the program prints `A` and a newline. -/
theorem C5_counterexample :
    printAlnum nulDrive.model = [65] ∧ List.filter isalnum nulDrive.modelField = [65, 66] ∧
      stdout (run { defaults with print_model := true } nulDrive 1).trace = [65, 10] := by
  decide

/-- C5 (alphanumeric filtering, amended). For every raw model field and every raw serial
field that holds a NUL byte, the string that the program prints for the field is the bytes
of the field before its first NUL with all non-alphanumeric bytes removed, order
preserved. -/
theorem C5_alnum_filter (env : Env) :
    (0 ∈ env.modelField →
        printAlnum env.model = List.filter isalnum (cstr env.modelField)) ∧
      (0 ∈ env.serialField →
        printAlnum env.serial_no = List.filter isalnum (cstr env.serialField)) := by
  constructor
  · intro h
    rw [printAlnum_eq_filter_cstr, cstr_model env h]
  · intro h
    rw [printAlnum_eq_filter_cstr, cstr_serial_no env h]

/-- Witness of C5: the serial `SN#42`, followed by NUL bytes in its field, is printed as
`SN42`, and the model `ST-1000` as `ST1000`. -/
theorem C5_alnum_filter_witness :
    printAlnum (driveAfter 0).serial_no = bytes "SN42" ∧
      printAlnum (driveAfter 0).model = bytes "ST1000" :=
  ⟨((C5_alnum_filter (driveAfter 0)).2 (by decide)).trans (by decide),
    ((C5_alnum_filter (driveAfter 0)).1 (by decide)).trans (by decide)⟩

/-- The print loop and `strstr` do not stop at the end of a field: on a serial field of 20
bytes without a NUL, `-S -s FW1` prints the serial and the alphanumeric bytes of the members
that follow, up to the first NUL, and finds the signature in the firmware revision. -/
theorem serial_read_runs_on :
    stdout (run { defaults with print_serial := true, sig := some (bytes "FW1") }
        fullWidthDrive 1).trace = bytes "S1234567890123456789XYZ123FW123ABMODELX\n" ∧
      (run { defaults with print_serial := true, sig := some (bytes "FW1") }
        fullWidthDrive 1).exit = some 0 ∧
      fullWidthDrive.serialField = bytes "S1234567890123456789" := by
  decide

/-! ## The data line -/

/-- C6, as stated, fails where C5 does: with `-M` and the model field `A`, NUL, `B` the
program writes `A` and a newline, while the model with its non-alphanumeric bytes removed,
followed by a newline, is `AB` and a newline. -/
theorem C6_counterexample :
    stdout (run { defaults with print_model := true } nulDrive 1).trace = bytes "A\n" ∧
      specDataLine true false (List.filter isalnum nulDrive.modelField)
        (List.filter isalnum nulDrive.serialField) = bytes "AB\n" := by
  decide

/-- C6 (data line format, amended). When the path has been found, the device opens, the
identity query succeeds and every requested field holds a NUL byte, the data written to
stdout is: filtered model, a single `-`, filtered serial and a newline with both `-M` and
`-S`; filtered model and a newline with `-M` only; filtered serial and a newline with `-S`
only; nothing with neither. Here the filtered form of a field is its bytes before the first
NUL with the non-alphanumeric bytes removed. The output of the identification stage starts
with this data line, and with the verbose flag off the data line is all that the program
writes to stdout. -/
theorem C6_data_line (cfg : Config) (env : Env) (fuel : Nat)
    (hfound : (pollLoop cfg env fuel 0 cfg.retries).status = PollStatus.found)
    (hopen : 0 ≤ env.openFd)
    (hid : env.ioctlRet = 0)
    (hmodel : cfg.print_model = true → 0 ∈ env.modelField)
    (hserial : cfg.print_serial = true → 0 ∈ env.serialField) :
    stdout (dataOutput cfg env) =
        specDataLine cfg.print_model cfg.print_serial
          (List.filter isalnum (cstr env.modelField))
          (List.filter isalnum (cstr env.serialField)) ∧
      (∃ diag, stdout (inspect cfg env).trace = stdout (dataOutput cfg env) ++ diag ∧
        (cfg.verbose = false → diag = [])) ∧
      (cfg.verbose = false →
        stdout (run cfg env fuel).trace =
          specDataLine cfg.print_model cfg.print_serial
            (List.filter isalnum (cstr env.modelField))
            (List.filter isalnum (cstr env.serialField))) := by
  have hline := dataLine_fields cfg env hmodel hserial
  obtain ⟨diag, hdiag, hquiet⟩ := stdout_afterIoctl_ok cfg env hid
  have hins : stdout (inspect cfg env).trace = stdout (dataOutput cfg env) ++ diag := by
    rw [inspect_opened cfg env hopen]
    simpa [stdout] using hdiag
  refine ⟨hline, ⟨diag, hins, hquiet⟩, fun hv => ?_⟩
  have hpoll := pollLoop_quiet cfg env hv fuel 0 cfg.retries (by rw [hfound]; decide)
  rw [run_found cfg env fuel hfound]
  simp only [stdout_append, banner_quiet cfg hv, hpoll, hins, hquiet hv, stdout,
    List.nil_append, List.append_nil]
  exact hline

/-- Witness of C6: with `-M -S` the drive `ST-1000`, `SN#42` is reported as `ST1000-SN42`
and a newline. -/
theorem C6_data_line_witness :
    stdout (run { defaults with print_model := true, print_serial := true }
      (driveAfter 0) 1).trace = bytes "ST1000-SN42\n" :=
  ((C6_data_line { defaults with print_model := true, print_serial := true } (driveAfter 0) 1
    (by decide) (by decide) rfl (fun _ => by decide) (fun _ => by decide)).2.2 rfl).trans
    (by decide)

/-! ## The identity query fails -/

/-- C7, evaluated where the code departs from it. The `ioctl` fails and leaves `ENOMSG` in
`errno`; a signature is requested. Line 169 compares `errno` with `-ENOMSG`, so the branch of
the no-identity signal is not taken and the program exits with code 0. Only if `errno` held
the negative value `-ENOMSG` would the program exit with code 2. -/
theorem C7_no_identity_signal_missed :
    (run { defaults with sig := some (bytes "ST") } noIdentity 1).exit = some 0 ∧
      (run { defaults with sig := some (bytes "ST") }
        { noIdentity with errno := -ENOMSG } 1).exit = some 2 := by
  decide

/-- C8, as stated, fails: with a signature requested and no identity information, the exit
code is 2 on the branch that the code keeps for the no-identity signal, and 0 when `errno`
holds `ENOMSG`; it is not 1. -/
theorem C8_counterexample :
    (run { defaults with sig := some (bytes "ST") }
        { noIdentity with errno := -ENOMSG } 1).exit ≠ some 1 ∧
      (run { defaults with sig := some (bytes "ST") } noIdentity 1).exit ≠ some 1 := by
  decide

/-- C8 (amended). When a signature is requested, the path has been found and the device
opens, the program does not exit with code 1, whatever the identity query yields; when the
query fails and the code takes the branch it keeps for the no-identity signal (line 169), it
exits with code 2, the signature mismatch. -/
theorem C8_absent_identity_exit (cfg : Config) (env : Env) (s : List Nat) (fuel : Nat)
    (hsig : cfg.sig = some s)
    (hfound : (pollLoop cfg env fuel 0 cfg.retries).status = PollStatus.found)
    (hopen : 0 ≤ env.openFd) :
    (run cfg env fuel).exit ≠ some 1 ∧
      (env.ioctlRet ≠ 0 → env.errno = -ENOMSG → (run cfg env fuel).exit = some 2) := by
  rw [run_found cfg env fuel hfound, inspect_opened cfg env hopen]
  constructor
  · by_cases hid : env.ioctlRet = 0
    · rw [afterIoctl_code_sig cfg env s hsig hid]
      split <;> simp [EXIT_NORMAL, EXIT_SIGNATURE_MISSMATCH]
    · by_cases he : env.errno = -ENOMSG
      · simp [afterIoctl, hid, he, hsig, EXIT_SIGNATURE_MISSMATCH]
      · simp [afterIoctl, hid, he, EXIT_NORMAL]
  · intro hfail he
    simp [afterIoctl, hfail, he, hsig, EXIT_SIGNATURE_MISSMATCH]

/-- Witness of C8: a signature is requested and the query takes the no-identity branch; the
exit code is 2. -/
theorem C8_absent_identity_exit_witness :
    (run { defaults with sig := some (bytes "ST") }
      { noIdentity with errno := -ENOMSG } 1).exit = some 2 :=
  (C8_absent_identity_exit { defaults with sig := some (bytes "ST") }
    { noIdentity with errno := -ENOMSG } (bytes "ST") 1 rfl (by decide) (by decide)).2
    (by decide) rfl

/-- C9 (generic query failure is not fatal). When the path has been found, the device opens
and the identity query fails with an error that line 169 does not take for the no-identity
signal, the program exits with code 0 for every setting of the print flags and of the
signature; the identification stage writes nothing but the diagnostic of the verbose mode,
so no model/serial data line, and with the verbose flag off the program writes nothing at
all. -/
theorem C9_query_failure_not_fatal (cfg : Config) (env : Env) (fuel : Nat)
    (hfound : (pollLoop cfg env fuel 0 cfg.retries).status = PollStatus.found)
    (hopen : 0 ≤ env.openFd)
    (hfail : env.ioctlRet ≠ 0)
    (herr : env.errno ≠ -ENOMSG) :
    (run cfg env fuel).exit = some 0 ∧
      stdout (inspect cfg env).trace =
        (if cfg.verbose then bytes "ERROR: HDIO_GET_IDENTITY" else []) ∧
      (cfg.verbose = false → stdout (run cfg env fuel).trace = []) := by
  have hins : stdout (inspect cfg env).trace =
      (if cfg.verbose then bytes "ERROR: HDIO_GET_IDENTITY" else []) := by
    rw [inspect_opened cfg env hopen]
    cases hv : cfg.verbose <;> simp [afterIoctl, hfail, herr, hv, stdout]
  refine ⟨?_, hins, fun hv => ?_⟩
  · rw [run_found cfg env fuel hfound, inspect_opened cfg env hopen]
    simp [afterIoctl, hfail, herr, EXIT_NORMAL]
  · have hpoll := pollLoop_quiet cfg env hv fuel 0 cfg.retries (by rw [hfound]; decide)
    rw [run_found cfg env fuel hfound]
    simp [stdout_append, banner_quiet cfg hv, hpoll, hins, hv]

/-- Witness of C9: the query fails with `EIO` (5) while `-M -S -s ST` are given; the exit
code is 0 and nothing is written. -/
theorem C9_query_failure_not_fatal_witness :
    (run printAndVerify { noIdentity with errno := 5 } 1).exit = some 0 ∧
      stdout (run printAndVerify { noIdentity with errno := 5 } 1).trace = [] :=
  have h := C9_query_failure_not_fatal printAndVerify { noIdentity with errno := 5 } 1
    (by decide) (by decide) (by decide) (by decide)
  ⟨h.1, h.2.2 rfl⟩

/-! ## The device cannot be opened -/

/-- C10 (open failure). When the path has been found and `open` fails, the program exits
with code 1 after the one call of `open`, makes no identity query, and the identification
stage writes nothing but the error line of the verbose mode: no model/serial data, for every
setting of the print flags and the signature. -/
theorem C10_open_failure (cfg : Config) (env : Env) (fuel : Nat)
    (hfound : (pollLoop cfg env fuel 0 cfg.retries).status = PollStatus.found)
    (hopen : env.openFd < 0) :
    (run cfg env fuel).exit = some 1 ∧
      ioctls (run cfg env fuel).trace = 0 ∧
      opens (run cfg env fuel).trace = 1 ∧
      stdout (inspect cfg env).trace =
        (if cfg.verbose then bytes "ERROR: Cannot open device " ++ fmtS cfg.device ++ bytes "\n"
          else []) ∧
      (cfg.verbose = false → stdout (run cfg env fuel).trace = []) := by
  have hins : inspect cfg env =
      { trace := Event.openDevice cfg.device ::
          (if cfg.verbose then
            [Event.out (bytes "ERROR: Cannot open device " ++ fmtS cfg.device ++ bytes "\n")]
          else []),
        code := EXIT_ERROR } := by
    simp [inspect, hopen]
  obtain ⟨-, -, b3, b4⟩ := banner_counts cfg
  obtain ⟨p3, p4⟩ := pollLoop_no_open cfg env fuel 0 cfg.retries
  rw [run_found cfg env fuel hfound, hins]
  refine ⟨rfl, ?_, ?_, ?_, fun hv => ?_⟩
  · simp only [ioctls_append, b4, p4]
    cases cfg.verbose <;> simp [ioctls]
  · simp only [opens_append, b3, p3]
    cases cfg.verbose <;> simp [opens]
  · cases cfg.verbose <;> simp [stdout]
  · have hpoll := pollLoop_quiet cfg env hv fuel 0 cfg.retries (by rw [hfound]; decide)
    simp [stdout_append, banner_quiet cfg hv, hpoll, hv, stdout]

/-- Witness of C10: the path is there but cannot be opened, with `-M -S` given; the exit
code is 1, no query is made and nothing is written. -/
theorem C10_open_failure_witness :
    (run { defaults with print_model := true, print_serial := true }
        { driveAfter 0 with openFd := -1 } 1).exit = some 1 ∧
      ioctls (run { defaults with print_model := true, print_serial := true }
        { driveAfter 0 with openFd := -1 } 1).trace = 0 ∧
      stdout (run { defaults with print_model := true, print_serial := true }
        { driveAfter 0 with openFd := -1 } 1).trace = [] :=
  have h := C10_open_failure { defaults with print_model := true, print_serial := true }
    { driveAfter 0 with openFd := -1 } 1 (by decide) (by decide)
  ⟨h.1, h.2.1, h.2.2.2.2 rfl⟩

/-! ## Argument parsing: the loop and the recursion on the arguments -/

/-- Induction on a list of arguments in steps of one and two, as parsing consumes them. -/
theorem args_induction (P : List (List Nat) → Prop) (h0 : P [])
    (h1 : ∀ a, P [a])
    (h2 : ∀ a v rest, P rest → P (v :: rest) → P (a :: v :: rest)) : ∀ l, P l := by
  have h : ∀ l, P l ∧ ∀ a, P (a :: l) := by
    intro l
    induction l with
    | nil => exact ⟨h0, h1⟩
    | cons v rest ih => exact ⟨ih.2 v, fun a => h2 a v rest ih.1 (ih.2 v)⟩
  exact fun l => (h l).1

theorem parseFrom_finished (l : List (List Nat)) :
    ∀ cfg, parseFrom l cfg ≠ ParseResult.fault ∧ parseFrom l cfg ≠ ParseResult.unfinished := by
  induction l using args_induction with
  | h0 => intro cfg; simp [parseFrom]
  | h1 a => intro cfg; unfold parseFrom; (repeat' split) <;> simp
  | h2 a v rest ih1 ih2 =>
    intro cfg
    unfold parseFrom
    (repeat' split) <;> first | apply ih1 | apply ih2 | simp

set_option maxHeartbeats 2000000 in
/-- The parsing loop from index `i` ends as the recursion on the arguments from `i` on. -/
theorem parseLoop_result (argv : List (List Nat)) :
    ∀ (fuel : Nat) (s : ParseState), s.i ≤ argv.length → argv.length < fuel + s.i →
      (parseLoop argv fuel s).result = parseFrom (argv.drop s.i) s.cfg := by
  intro fuel
  induction fuel with
  | zero => intro s h1 h2; omega
  | succ f ih =>
    intro s h1 h2
    by_cases hlt : s.i < argv.length
    · have hdrop : argv.drop s.i = argv[s.i] :: argv.drop (s.i + 1) :=
        List.drop_eq_getElem_cons hlt
      have hget : argv.get? s.i = some argv[s.i] := by
        rw [List.get?_eq_getElem?, List.getElem?_eq_getElem hlt]
      by_cases hlt2 : s.i + 1 < argv.length
      · have hdrop2 : argv.drop (s.i + 1) = argv[s.i + 1] :: argv.drop (s.i + 1 + 1) :=
          List.drop_eq_getElem_cons hlt2
        have hget2 : argv.get? (s.i + 1) = some argv[s.i + 1] := by
          rw [List.get?_eq_getElem?, List.getElem?_eq_getElem hlt2]
        have hguard : ¬ ((argv.length : Int) - 1 ≤ (s.i : Int)) := by omega
        have ih1 := fun cfg reads => ih { i := s.i + 1, cfg := cfg, reads := reads }
          (by simp only []; omega) (by simp only []; omega)
        have ih2 := fun cfg reads => ih { i := s.i + 2, cfg := cfg, reads := reads }
          (by simp only []; omega) (by simp only []; omega)
        simp only [] at ih1 ih2
        rw [hdrop, hdrop2] at *
        simp only [parseLoop, hlt, if_true, parseStep, hget, takeValue, hguard, hget2, parseFrom,
          if_false]
        split_ifs <;> simp only [ih1, ih2, hdrop2]
      · have hnil : argv.drop (s.i + 1) = [] := List.drop_eq_nil_of_le (by omega)
        have hguard : (argv.length : Int) - 1 ≤ (s.i : Int) := by omega
        have ih1 := fun cfg reads => ih { i := s.i + 1, cfg := cfg, reads := reads }
          (by simp only []; omega) (by simp only []; omega)
        simp only [hnil, parseFrom] at ih1
        rw [hdrop, hnil]
        simp only [parseLoop, hlt, if_true, parseStep, hget, takeValue, hguard, parseFrom]
        split_ifs <;> simp only [ih1]
    · have hnil : argv.drop s.i = [] := List.drop_eq_nil_of_le (by omega)
      simp [parseLoop, hlt, hnil, parseFrom]

/-- The result of argument parsing, by recursion on the arguments after the program
name. -/
theorem parseArgs_result (argv : List (List Nat)) (h : 1 ≤ argv.length) :
    (parseArgs argv).result = parseFrom (argv.drop 1) initial := by
  unfold parseArgs
  rw [parseLoop_result argv argv.length _ (by simpa using h) (by simp)]

/-- Taking the value of an option reads `argv` below `argc` only. -/
theorem takeValue_reads (argv : List (List Nat)) (s : ParseState) (reads : List Nat)
    (set : List Nat → Config) (hr : ∀ r ∈ reads, r < argv.length) :
    (∀ s', takeValue argv s reads set = Sum.inl s' → ∀ r ∈ s'.reads, r < argv.length) ∧
      (∀ out, takeValue argv s reads set = Sum.inr out → ∀ r ∈ out.reads, r < argv.length) := by
  unfold takeValue
  by_cases hg : (argv.length : Int) - 1 ≤ (s.i : Int)
  · simp only [hg, if_true]
    constructor
    · intro s' h; cases h
    · intro out h; cases h; exact hr
  · have hr2 : ∀ r ∈ reads ++ [s.i + 1], r < argv.length := by
      intro r h
      rcases List.mem_append.1 h with h | h
      · exact hr r h
      · simp at h; omega
    simp only [hg, if_false]
    cases argv.get? (s.i + 1) with
    | none =>
      constructor
      · intro s' h; cases h
      · intro out h; cases h; exact hr2
    | some v =>
      constructor
      · intro s' h; cases h; exact hr2
      · intro out h; cases h

/-- One iteration reads `argv` below `argc` only. -/
theorem parseStep_reads (argv : List (List Nat)) (s : ParseState)
    (hr : ∀ r ∈ s.reads, r < argv.length) (hlt : s.i < argv.length) :
    (∀ s', parseStep argv s = Sum.inl s' → ∀ r ∈ s'.reads, r < argv.length) ∧
      (∀ out, parseStep argv s = Sum.inr out → ∀ r ∈ out.reads, r < argv.length) := by
  have hr1 : ∀ r ∈ s.reads ++ [s.i], r < argv.length := by
    intro r h
    rcases List.mem_append.1 h with h | h
    · exact hr r h
    · simp at h; omega
  have hval := fun set => takeValue_reads argv s (s.reads ++ [s.i]) set hr1
  have hin : ∀ i cfg, (∀ s', (Sum.inl { i := i, cfg := cfg, reads := s.reads ++ [s.i] } :
        ParseState ⊕ ParseOut) = Sum.inl s' → ∀ r ∈ s'.reads, r < argv.length) ∧
      (∀ out, (Sum.inl { i := i, cfg := cfg, reads := s.reads ++ [s.i] } :
        ParseState ⊕ ParseOut) = Sum.inr out → ∀ r ∈ out.reads, r < argv.length) := by
    intro i cfg
    constructor
    · intro s' h; cases h; exact hr1
    · intro out h; cases h
  have hout : ∀ res, (∀ s', (Sum.inr { reads := s.reads ++ [s.i], result := res } :
        ParseState ⊕ ParseOut) = Sum.inl s' → ∀ r ∈ s'.reads, r < argv.length) ∧
      (∀ out, (Sum.inr { reads := s.reads ++ [s.i], result := res } :
        ParseState ⊕ ParseOut) = Sum.inr out → ∀ r ∈ out.reads, r < argv.length) := by
    intro res
    constructor
    · intro s' h; cases h
    · intro out h; cases h; exact hr1
  unfold parseStep
  cases argv.get? s.i with
  | none => exact hout _
  | some a =>
    simp only []
    split_ifs <;> first
      | exact hin _ _
      | exact hval _
      | exact hout _
      | exact ⟨fun s' h => by cases h; exact hr1, fun out h => h.elim⟩
      | exact ⟨fun s' h => h.elim, fun out h => by cases h; exact hr1⟩

/-- The parsing loop reads `argv` below `argc` only. -/
theorem parseLoop_reads (argv : List (List Nat)) :
    ∀ (fuel : Nat) (s : ParseState), (∀ r ∈ s.reads, r < argv.length) →
      ∀ r ∈ (parseLoop argv fuel s).reads, r < argv.length := by
  intro fuel
  induction fuel with
  | zero => intro s hr; simpa [parseLoop] using hr
  | succ f ih =>
    intro s hr
    unfold parseLoop
    by_cases hlt : s.i < argv.length
    · have hstep := parseStep_reads argv s hr hlt
      simp only [hlt, if_true]
      cases hs : parseStep argv s with
      | inl s' => exact ih s' (hstep.1 s' hs)
      | inr out => exact hstep.2 out hs
    · simpa [hlt] using hr

/-! ## Argument parsing: one argument at a time -/

theorem isOption_iff (a : List Nat) (c : Nat) :
    isOption a c = true ↔ charAt a 0 = 45 ∧ charAt a 1 = c := by
  simp [isOption]

/-- Every argument is of exactly one of the kinds that the loop tells apart. -/
theorem arg_kinds (a : List Nat) :
    charAt a 0 ≠ 45 ∨ isOption a 118 = true ∨ isOption a 83 = true ∨ isOption a 77 = true ∨
      isOption a 100 = true ∨ isOption a 115 = true ∨ isOption a 112 = true ∨
      isOption a 114 = true ∨ isUnknownOption a = true := by
  simp only [isUnknownOption, isFlag, takesValue, isOption]
  by_cases h0 : charAt a 0 = 45 <;> simp [h0]
  tauto

theorem parseFrom_plain (a : List Nat) (l : List (List Nat)) (cfg : Config)
    (h : charAt a 0 ≠ 45) : parseFrom (a :: l) cfg = parseFrom l cfg := by
  cases l <;> simp [parseFrom, h]

theorem parseFrom_v (a : List Nat) (l : List (List Nat)) (cfg : Config)
    (h : isOption a 118 = true) :
    parseFrom (a :: l) cfg = parseFrom l { cfg with verbose := true } := by
  rw [isOption_iff] at h
  cases l <;> simp [parseFrom, h.1, h.2]

theorem parseFrom_S (a : List Nat) (l : List (List Nat)) (cfg : Config)
    (h : isOption a 83 = true) :
    parseFrom (a :: l) cfg = parseFrom l { cfg with print_serial := true } := by
  rw [isOption_iff] at h
  cases l <;> simp [parseFrom, h.1, h.2]

theorem parseFrom_M (a : List Nat) (l : List (List Nat)) (cfg : Config)
    (h : isOption a 77 = true) :
    parseFrom (a :: l) cfg = parseFrom l { cfg with print_model := true } := by
  rw [isOption_iff] at h
  cases l <;> simp [parseFrom, h.1, h.2]

theorem parseFrom_d (a v : List Nat) (l : List (List Nat)) (cfg : Config)
    (h : isOption a 100 = true) :
    parseFrom (a :: v :: l) cfg = parseFrom l { cfg with device := some v } := by
  rw [isOption_iff] at h
  simp [parseFrom, h.1, h.2]

theorem parseFrom_s (a v : List Nat) (l : List (List Nat)) (cfg : Config)
    (h : isOption a 115 = true) :
    parseFrom (a :: v :: l) cfg = parseFrom l { cfg with sig := some v } := by
  rw [isOption_iff] at h
  simp [parseFrom, h.1, h.2]

theorem parseFrom_p (a v : List Nat) (l : List (List Nat)) (cfg : Config)
    (h : isOption a 112 = true) :
    parseFrom (a :: v :: l) cfg =
      parseFrom l { cfg with polling_wait := toInt32 (strtol v * 1000) } := by
  rw [isOption_iff] at h
  simp [parseFrom, h.1, h.2]

theorem parseFrom_r (a v : List Nat) (l : List (List Nat)) (cfg : Config)
    (h : isOption a 114 = true) :
    parseFrom (a :: v :: l) cfg = parseFrom l { cfg with retries := toInt32 (strtol v) } := by
  rw [isOption_iff] at h
  simp [parseFrom, h.1, h.2]

theorem parseFrom_value_missing (a : List Nat) (cfg : Config) (h : takesValue a = true) :
    parseFrom [a] cfg = ParseResult.insufficient := by
  simp only [takesValue, Bool.or_eq_true, isOption_iff] at h
  rcases h with ((h | h) | h) | h <;> simp [parseFrom, h.1, h.2]

theorem parseFrom_unknown (a : List Nat) (l : List (List Nat)) (cfg : Config)
    (h : isUnknownOption a = true) : parseFrom (a :: l) cfg = ParseResult.unknown a := by
  have h0 : charAt a 0 = 45 := by
    simp only [isUnknownOption, Bool.and_eq_true, beq_iff_eq] at h
    exact h.1.1
  have hk : ∀ c, c = 118 ∨ c = 83 ∨ c = 77 ∨ c = 100 ∨ c = 115 ∨ c = 112 ∨ c = 114 →
      charAt a 1 ≠ c := by
    intro c hc hc'
    simp [isUnknownOption, isFlag, takesValue, isOption, h0, hc'] at h
    omega
  cases l <;>
    simp [parseFrom, h0, hk 118, hk 83, hk 77, hk 100, hk 115, hk 112, hk 114]

/-- The three ways in which the loop treats an argument in option position: it goes on to
the next argument, it takes the next argument as a value, or it stops. -/
theorem arg_cases (a : List Nat) :
    (takesValue a = false ∧ isUnknownOption a = false ∧ isOption a 112 = false ∧
        isOption a 114 = false ∧
        ∃ f : Config → Config, (∀ l cfg, parseFrom (a :: l) cfg = parseFrom l (f cfg)) ∧
          (∀ cfg, (f cfg).polling_wait = cfg.polling_wait)) ∨
      (takesValue a = true ∧ isUnknownOption a = false ∧
        ∃ g : List Nat → Config → Config,
          (∀ v l cfg, parseFrom (a :: v :: l) cfg = parseFrom l (g v cfg)) ∧
          (isOption a 112 = false → ∀ v cfg, (g v cfg).polling_wait = cfg.polling_wait)) ∨
      (takesValue a = false ∧ isUnknownOption a = true ∧
        ∀ l cfg, parseFrom (a :: l) cfg = ParseResult.unknown a) := by
  rcases arg_kinds a with h | h | h | h | h | h | h | h | h
  · refine Or.inl ⟨?_, ?_, ?_, ?_, fun cfg => cfg, fun l cfg => parseFrom_plain a l cfg h,
      fun _ => rfl⟩ <;> simp [takesValue, isUnknownOption, isOption, h]
  · have h' := (isOption_iff a 118).1 h
    refine Or.inl ⟨?_, ?_, ?_, ?_, _, fun l cfg => parseFrom_v a l cfg h, fun _ => rfl⟩ <;>
      simp [takesValue, isUnknownOption, isFlag, isOption, h'.1, h'.2]
  · have h' := (isOption_iff a 83).1 h
    refine Or.inl ⟨?_, ?_, ?_, ?_, _, fun l cfg => parseFrom_S a l cfg h, fun _ => rfl⟩ <;>
      simp [takesValue, isUnknownOption, isFlag, isOption, h'.1, h'.2]
  · have h' := (isOption_iff a 77).1 h
    refine Or.inl ⟨?_, ?_, ?_, ?_, _, fun l cfg => parseFrom_M a l cfg h, fun _ => rfl⟩ <;>
      simp [takesValue, isUnknownOption, isFlag, isOption, h'.1, h'.2]
  · have h' := (isOption_iff a 100).1 h
    refine Or.inr (Or.inl ⟨?_, ?_, _, fun v l cfg => parseFrom_d a v l cfg h,
      fun _ _ _ => rfl⟩) <;>
      simp [takesValue, isUnknownOption, isFlag, isOption, h'.1, h'.2]
  · have h' := (isOption_iff a 115).1 h
    refine Or.inr (Or.inl ⟨?_, ?_, _, fun v l cfg => parseFrom_s a v l cfg h,
      fun _ _ _ => rfl⟩) <;>
      simp [takesValue, isUnknownOption, isFlag, isOption, h'.1, h'.2]
  · have h' := (isOption_iff a 112).1 h
    refine Or.inr (Or.inl ⟨?_, ?_, _, fun v l cfg => parseFrom_p a v l cfg h,
      fun hp => ?_⟩)
    · simp [takesValue, isUnknownOption, isFlag, isOption, h'.1, h'.2]
    · simp [takesValue, isUnknownOption, isFlag, isOption, h'.1, h'.2]
    · rw [h] at hp; cases hp
  · have h' := (isOption_iff a 114).1 h
    refine Or.inr (Or.inl ⟨?_, ?_, _, fun v l cfg => parseFrom_r a v l cfg h,
      fun _ _ _ => rfl⟩) <;>
      simp [takesValue, isUnknownOption, isFlag, isOption, h'.1, h'.2]
  · refine Or.inr (Or.inr ⟨?_, h, fun l cfg => parseFrom_unknown a l cfg h⟩)
    simp only [isUnknownOption, Bool.and_eq_true, Bool.not_eq_true'] at h
    exact h.2

/-- After a command line that parses to its end, parsing goes on with what follows. -/
theorem parseFrom_append (l1 l2 : List (List Nat)) :
    ∀ cfg cfg', parseFrom l1 cfg = ParseResult.ok cfg' →
      parseFrom (l1 ++ l2) cfg = parseFrom l2 cfg' := by
  induction l1 using args_induction with
  | h0 => intro cfg cfg' h; simp [parseFrom] at h; simp [h]
  | h1 a =>
    intro cfg cfg' h
    rcases arg_cases a with ⟨-, -, -, -, f, hf, -⟩ | ⟨ht, -, -⟩ | ⟨-, -, hu⟩
    · rw [hf] at h
      simp only [parseFrom, ParseResult.ok.injEq] at h
      rw [List.singleton_append, hf, h]
    · rw [parseFrom_value_missing a cfg ht] at h; cases h
    · rw [hu] at h; cases h
  | h2 a v rest ih1 ih2 =>
    intro cfg cfg' h
    rcases arg_cases a with ⟨-, -, -, -, f, hf, -⟩ | ⟨-, -, g, hg, -⟩ | ⟨-, -, hu⟩
    · rw [hf] at h
      rw [List.cons_append, hf]
      exact ih2 _ _ h
    · rw [hg] at h
      rw [List.cons_append, List.cons_append, hg]
      exact ih1 _ _ h
    · rw [hu] at h; cases h

/-- An unrecognized option in option position stops the parsing with `Unknown parameter`. -/
theorem parseFrom_unknown_option (l : List (List Nat)) :
    ∀ cfg, (∃ a ∈ optionArgs l, isUnknownOption a = true) →
      ∃ b, parseFrom l cfg = ParseResult.unknown b := by
  induction l using args_induction with
  | h0 => intro cfg h; simp [optionArgs] at h
  | h1 a =>
    intro cfg h
    simp only [optionArgs, List.mem_singleton, exists_eq_left] at h
    exact ⟨a, parseFrom_unknown a [] cfg h⟩
  | h2 a v rest ih1 ih2 =>
    intro cfg h
    obtain ⟨b, hb, hbu⟩ := h
    rcases arg_cases a with ⟨ht, hu, -, -, f, hf, -⟩ | ⟨ht, hu, g, hg, -⟩ | ⟨-, -, hu⟩
    · simp only [optionArgs, ht, Bool.false_eq_true, if_false, List.mem_cons] at hb
      rcases hb with rfl | hb
      · rw [hu] at hbu; cases hbu
      · rw [hf]; exact ih2 _ ⟨b, hb, hbu⟩
    · simp only [optionArgs, ht, if_true, List.mem_cons] at hb
      rcases hb with rfl | hb
      · rw [hu] at hbu; cases hbu
      · rw [hg]; exact ih1 _ ⟨b, hb, hbu⟩
    · exact ⟨a, hu _ _⟩

/-- When the value of the last option is missing, parsing stops with an error. -/
theorem parseFrom_valueMissing (l : List (List Nat)) :
    ∀ cfg, valueMissing l = true →
      parseFrom l cfg = ParseResult.insufficient ∨ ∃ b, parseFrom l cfg = ParseResult.unknown b := by
  induction l using args_induction with
  | h0 => intro cfg h; simp [valueMissing] at h
  | h1 a =>
    intro cfg h
    simp only [valueMissing] at h
    exact Or.inl (parseFrom_value_missing a cfg h)
  | h2 a v rest ih1 ih2 =>
    intro cfg h
    rcases arg_cases a with ⟨ht, -, -, -, f, hf, -⟩ | ⟨ht, -, g, hg, -⟩ | ⟨-, -, hu⟩
    · simp only [valueMissing, ht, Bool.false_eq_true, if_false] at h
      rw [hf]; exact ih2 _ h
    · simp only [valueMissing, ht, if_true] at h
      rw [hg]; exact ih1 _ h
    · exact Or.inr ⟨a, hu _ _⟩

/-- Without `-p` in option position the polling interval keeps its value. -/
theorem parseFrom_polling_wait (l : List (List Nat)) :
    ∀ cfg cfg', (∀ a ∈ optionArgs l, isOption a 112 = false) →
      parseFrom l cfg = ParseResult.ok cfg' → cfg'.polling_wait = cfg.polling_wait := by
  induction l using args_induction with
  | h0 => intro cfg cfg' _ h; simp [parseFrom] at h; rw [h]
  | h1 a =>
    intro cfg cfg' _ h
    rcases arg_cases a with ⟨-, -, -, -, f, hf, hfp⟩ | ⟨ht, -, -⟩ | ⟨-, -, hu⟩
    · rw [hf] at h
      simp only [parseFrom, ParseResult.ok.injEq] at h
      rw [← h, hfp]
    · rw [parseFrom_value_missing a cfg ht] at h; cases h
    · rw [hu] at h; cases h
  | h2 a v rest ih1 ih2 =>
    intro cfg cfg' hno h
    rcases arg_cases a with ⟨ht, -, -, -, f, hf, hfp⟩ | ⟨ht, -, g, hg, hgp⟩ | ⟨-, -, hu⟩
    · rw [hf] at h
      have hno' : ∀ b ∈ optionArgs (v :: rest), isOption b 112 = false := by
        intro b hb
        apply hno
        simp [optionArgs, ht, hb]
      rw [ih2 _ _ hno' h, hfp]
    · rw [hg] at h
      have hno' : ∀ b ∈ optionArgs rest, isOption b 112 = false := by
        intro b hb
        apply hno
        simp [optionArgs, ht, hb]
      have hap : isOption a 112 = false := hno a (by simp [optionArgs, ht])
      rw [ih1 _ _ hno' h, hgp hap]
    · rw [hu] at h; cases h

/-! ## Numbers on the command line -/

theorem decimalAux_digits : ∀ (fuel m : Nat) (tail : List Nat),
    (∀ c ∈ tail, 48 ≤ c ∧ c ≤ 57) → ∀ c ∈ decimalAux fuel m tail, 48 ≤ c ∧ c ≤ 57 := by
  intro fuel
  induction fuel with
  | zero => intro m tail h; simpa [decimalAux] using h
  | succ f ih =>
    intro m tail h
    unfold decimalAux
    by_cases hm : m < 10
    · simp only [hm, if_true]
      intro c hc
      rcases List.mem_cons.1 hc with rfl | hc
      · omega
      · exact h c hc
    · simp only [hm, if_false]
      apply ih
      intro c hc
      rcases List.mem_cons.1 hc with rfl | hc
      · omega
      · exact h c hc

theorem decimalAux_ne_nil : ∀ (fuel m : Nat) (tail : List Nat),
    0 < fuel → decimalAux fuel m tail ≠ [] := by
  intro fuel
  induction fuel with
  | zero => intro m tail h; omega
  | succ f ih =>
    intro m tail _
    unfold decimalAux
    by_cases hm : m < 10
    · simp [hm]
    · simp only [hm, if_false]
      cases f with
      | zero => simp [decimalAux]
      | succ f' => exact ih _ _ (by omega)

theorem strtolDigits_decimalAux : ∀ (fuel m : Nat) (tail : List Nat), m < fuel →
    strtolDigits (decimalAux fuel m tail) 0 = strtolDigits tail m := by
  intro fuel
  induction fuel with
  | zero => intro m tail h; omega
  | succ f ih =>
    intro m tail h
    unfold decimalAux
    by_cases hm : m < 10
    · have h1 : 48 ≤ m + 48 ∧ m + 48 ≤ 57 := by omega
      simp [hm, strtolDigits, h1]
    · simp only [hm, if_false]
      rw [ih (m / 10) _ (by omega)]
      have h1 : 48 ≤ m % 10 + 48 ∧ m % 10 + 48 ≤ 57 := by omega
      simp only [strtolDigits, h1, and_self, if_true]
      congr 1
      omega

/-- The digit loop reads the decimal numeral of `m` as `m`. -/
theorem strtolDigits_decimal (m : Nat) : strtolDigits (decimal m) 0 = m := by
  unfold decimal
  rw [strtolDigits_decimalAux (m + 1) m [] (by omega)]
  rfl

theorem decimal_digits (m : Nat) : ∀ c ∈ decimal m, 48 ≤ c ∧ c ≤ 57 :=
  decimalAux_digits (m + 1) m [] (by simp)

theorem cstr_decimal (m : Nat) : cstr (decimal m) = decimal m :=
  cstr_eq_self _ (fun h => by have := decimal_digits m 0 h; omega)

/-- The function `strtol` reads the decimal numeral of `m` as `m`. -/
theorem strtol_decimal (m : Nat) (hm : (m : Int) ≤ LONG_MAX) : strtol (decimal m) = m := by
  have hd := decimal_digits m
  have hs := strtolDigits_decimal m
  unfold strtol
  rw [cstr_decimal]
  cases hl : decimal m with
  | nil => exact absurd hl (decimalAux_ne_nil _ _ _ (by omega))
  | cons c rest =>
    rw [hl] at hd hs
    have hc := hd c (by simp)
    have hsp : isspace c = false := by
      simp only [isspace, Bool.or_eq_false_iff, beq_eq_false_iff_ne, ne_eq, Bool.and_eq_false_imp,
        decide_eq_true_eq, decide_eq_false_iff_not]
      omega
    have h45 : c ≠ 45 := by omega
    have h43 : c ≠ 43 := by omega
    simp only [List.dropWhile, hsp, h45, h43, if_false, hs]
    exact min_eq_right hm

/-- The function `strtol` reads a minus sign and the decimal numeral of `m` as `-m`. -/
theorem strtol_neg_decimal (m : Nat) (hm : LONG_MIN ≤ -(m : Int)) :
    strtol (45 :: decimal m) = -(m : Int) := by
  have h0 : (0 : Nat) ∉ (45 :: decimal m) := by
    intro h
    rcases List.mem_cons.1 h with h | h
    · omega
    · have := decimal_digits m 0 h; omega
  unfold strtol
  rw [cstr_eq_self _ h0]
  have hsp : isspace 45 = false := by decide
  simp only [List.dropWhile, hsp, if_true, strtolDigits_decimal]
  exact max_eq_right hm

/-- A text that begins with a byte that is not white space, a sign or a digit is read
as 0. -/
theorem strtol_non_numeric (c : Nat) (rest : List Nat)
    (hsp : isspace c = false) (hsign : c ≠ 45 ∧ c ≠ 43) (hdigit : ¬ (48 ≤ c ∧ c ≤ 57)) :
    strtol (c :: rest) = 0 := by
  unfold strtol
  by_cases hc : c = 0
  · simp [cstr, hc]
  · simp only [cstr, hc, if_false, List.dropWhile, hsp, hsign.1, hsign.2, strtolDigits, hdigit]
    simp [LONG_MAX]

theorem toInt32_eq (x : Int) (h1 : -(2 ^ 31) ≤ x) (h2 : x < 2 ^ 31) : toInt32 x = x := by
  unfold toInt32
  omega

/-! ## Runs of the whole program -/

theorem markers_append (a b : List Event) : markers (a ++ b) = markers a + markers b := by
  induction a with
  | nil => simp [markers]
  | cons e t ih =>
    cases e with
    | out s =>
      by_cases hs : s = bytes "."
      · simp [markers, hs, ih]; omega
      · simp [markers, hs, ih]
    | _ => simp [markers, ih]

/-- Every sleep of the polling loop is of `polling_wait`. -/
theorem sleeps_pollLoop (cfg : Config) (env : Env) (fuel : Nat) :
    ∀ (i : Nat) (retries : Int),
      ∀ u ∈ sleeps (pollLoop cfg env fuel i retries).trace, u = cfg.polling_wait := by
  induction fuel with
  | zero => intro i retries u h; simp [pollLoop, sleeps] at h
  | succ f ih =>
    intro i retries u
    have hdot : ∀ (t : List Event),
        sleeps ((if cfg.verbose then [Event.out (bytes ".")] else []) ++ t) = sleeps t := by
      intro t; cases cfg.verbose <;> simp [sleeps]
    simp only [pollLoop]
    split
    · simp [sleeps]
    · split
      · split
        · simp [sleeps, hdot]
        · simp only [sleeps, hdot, List.mem_cons]
          rintro (h | h)
          · exact h
          · exact ih _ _ u h
      · simp only [sleeps, hdot, List.mem_cons]
        rintro (h | h)
        · exact h
        · exact ih _ _ u h

/-- Every sleep of a run is of `polling_wait`. -/
theorem sleeps_run (cfg : Config) (env : Env) (fuel : Nat) :
    ∀ u ∈ sleeps (run cfg env fuel).trace, u = cfg.polling_wait := by
  intro u hu
  obtain ⟨-, b2, -, -⟩ := banner_counts cfg
  obtain ⟨-, n2⟩ := inspect_no_poll cfg env
  unfold run at hu
  cases hs : (pollLoop cfg env fuel 0 cfg.retries).status <;>
    simp only [hs, sleeps_append, b2, n2, List.nil_append, List.append_nil] at hu <;>
    exact sleeps_pollLoop cfg env fuel 0 cfg.retries u hu

/-- With at least one argument, a command line that parses to its end is followed by the
run with the settings made. -/
theorem main_ok (argv : List (List Nat)) (env : Env) (fuel : Nat) (cfg : Config)
    (hlen : 2 ≤ argv.length) (h : (parseArgs argv).result = ParseResult.ok cfg) :
    main argv env fuel = run cfg env fuel := by
  have hl : ¬ argv.length < 2 := by omega
  simp [main, hl, h]

/-- A command line that parses to its end is not empty. -/
theorem parseArgs_ok_length (pre : List (List Nat)) (cfg : Config)
    (h : (parseArgs pre).result = ParseResult.ok cfg) : 1 ≤ pre.length := by
  cases pre with
  | nil => simp [parseArgs, parseLoop] at h
  | cons a l => simp

/-- Arguments added to a command line that parses to its end are parsed with the settings
made so far. -/
theorem parseArgs_append (pre suf : List (List Nat)) (cfg : Config)
    (h : (parseArgs pre).result = ParseResult.ok cfg) :
    (parseArgs (pre ++ suf)).result = parseFrom suf cfg := by
  have hlen := parseArgs_ok_length pre cfg h
  rw [parseArgs_result pre hlen] at h
  rw [parseArgs_result (pre ++ suf) (by simp; omega)]
  have hdrop : (pre ++ suf).drop 1 = pre.drop 1 ++ suf := by
    cases pre with
    | nil => simp at hlen
    | cons a l => simp
  rw [hdrop]
  exact parseFrom_append _ _ _ _ h

/-- With a counter that is not positive the loop does not look at the budget: the events
and the status are those of any other such counter, and the counter keeps its value. -/
theorem pollLoop_nonpos (cfg cfg2 : Config) (env : Env)
    (hd : cfg2.device = cfg.device) (hv : cfg2.verbose = cfg.verbose)
    (hw : cfg2.polling_wait = cfg.polling_wait) (fuel : Nat) :
    ∀ (i : Nat) (r r2 : Int), r ≤ 0 → r2 ≤ 0 →
      (pollLoop cfg env fuel i r).trace = (pollLoop cfg2 env fuel i r2).trace ∧
        (pollLoop cfg env fuel i r).status = (pollLoop cfg2 env fuel i r2).status ∧
        (pollLoop cfg env fuel i r).retries = r := by
  induction fuel with
  | zero => intro i r r2 _ _; simp [pollLoop]
  | succ f ih =>
    intro i r r2 hr hr2
    have h1 : ¬ (0 < r) := by omega
    have h2 : ¬ (0 < r2) := by omega
    obtain ⟨i1, i2, i3⟩ := ih (i + 1) r r2 hr hr2
    by_cases h0 : env.access i = 0
    · simp [pollLoop, h0, hd]
    · simp [pollLoop, h0, h1, h2, hd, hv, hw, i1, i2, i3]

/-- A loop that has found the path ends with the successful check; before it there is
neither an `open` nor a query. -/
theorem pollLoop_found_shape (cfg : Config) (env : Env) (fuel : Nat) :
    ∀ (i : Nat) (retries : Int),
      (pollLoop cfg env fuel i retries).status = PollStatus.found →
      ∃ pre, (pollLoop cfg env fuel i retries).trace = pre ++ [Event.access cfg.device] ∧
        env.access (i + checks pre) = 0 ∧ opens pre = 0 ∧ ioctls pre = 0 := by
  induction fuel with
  | zero => intro i retries h; simp [pollLoop] at h
  | succ f ih =>
    intro i retries
    have hstep : ∀ r, (pollLoop cfg env f (i + 1) r).status = PollStatus.found →
        ∃ pre, Event.access cfg.device ::
            ((if cfg.verbose then [Event.out (bytes ".")] else []) ++
              Event.usleep cfg.polling_wait :: (pollLoop cfg env f (i + 1) r).trace) =
            pre ++ [Event.access cfg.device] ∧
          env.access (i + checks pre) = 0 ∧ opens pre = 0 ∧ ioctls pre = 0 := by
      intro r h
      obtain ⟨pre, hp, ha, ho, hi⟩ := ih (i + 1) r h
      refine ⟨Event.access cfg.device ::
        ((if cfg.verbose then [Event.out (bytes ".")] else []) ++
          Event.usleep cfg.polling_wait :: pre), ?_, ?_, ?_, ?_⟩
      · rw [hp]; simp
      · cases cfg.verbose <;> simp [checks] <;>
          rwa [show i + (checks pre + 1) = i + 1 + checks pre by omega]
      · cases cfg.verbose <;> simp [opens, ho]
      · cases cfg.verbose <;> simp [ioctls, hi]
    simp only [pollLoop]
    split
    · intro _
      exact ⟨[], by simp, by simpa [checks], rfl, rfl⟩
    · split
      · split
        · intro h; cases h
        · exact hstep _
      · exact hstep _

/-- The progress markers of the polling loop: with the verbose flag on one for each failed
check (every check but the successful one), none with the flag off. -/
theorem markers_pollLoop (cfg : Config) (env : Env) (fuel : Nat) :
    ∀ (i : Nat) (retries : Int),
      markers (pollLoop cfg env fuel i retries).trace +
          (if cfg.verbose = true ∧ (pollLoop cfg env fuel i retries).status = PollStatus.found
            then 1 else 0) =
        if cfg.verbose then checks (pollLoop cfg env fuel i retries).trace else 0 := by
  induction fuel with
  | zero => intro i retries; simp [pollLoop, markers, checks]
  | succ f ih =>
    intro i retries
    have hne : bytes "No device found\n" ≠ bytes "." := by decide
    simp only [pollLoop]
    split
    · cases hv : cfg.verbose <;> simp [markers, checks]
    · split
      · split
        · cases hv : cfg.verbose <;> simp [markers, checks, hne]
        · have := ih (i + 1) (retries - 1)
          cases hv : cfg.verbose <;> simp [markers, checks, hv] at this ⊢
          · exact this
          · omega
      · have := ih (i + 1) retries
        cases hv : cfg.verbose <;> simp [markers, checks, hv] at this ⊢
        · exact this
        · omega

/-! ## Argument errors -/

/-- C11, evaluated where the code departs from it. The command line `waitfordevice -M` has no
`-d`: the program does not exit with code 1, it leaves `device` at `NULL` and polls
`access(NULL, F_OK)`; after three failed checks it is still polling. With `-r 1` and no `-d`
it makes one check and exits with code 3. Only the command line without any argument is
refused with code 1. -/
theorem C11_missing_device_not_detected :
    (main [bytes "waitfordevice", bytes "-M"] neverThere 3).exit = none ∧
      (main [bytes "waitfordevice", bytes "-M"] neverThere 3).trace =
        [Event.access none, Event.usleep 250000, Event.access none, Event.usleep 250000,
          Event.access none, Event.usleep 250000] ∧
      (main [bytes "waitfordevice", bytes "-r", bytes "1"] neverThere 3).exit = some 3 ∧
      checks (main [bytes "waitfordevice", bytes "-r", bytes "1"] neverThere 3).trace = 1 ∧
      (main [bytes "waitfordevice"] neverThere 3).exit = some 1 ∧
      checks (main [bytes "waitfordevice"] neverThere 3).trace = 0 := by
  decide

/-- C12 (unrecognized options). If some argument in option position (not consumed as the
value of `-d`, `-s`, `-p` or `-r`) begins with `-` and its next character is not one of
`v`, `S`, `M`, `d`, `s`, `p`, `r`, the program exits with code 1; it makes no existence
check, sleep, `open` or identity query, and writes nothing to stdout. -/
theorem C12_unknown_option (argv : List (List Nat)) (env : Env) (fuel : Nat)
    (h : ∃ a ∈ optionArgs (argv.drop 1), isUnknownOption a = true) :
    (main argv env fuel).exit = some 1 ∧
      checks (main argv env fuel).trace = 0 ∧
      sleeps (main argv env fuel).trace = [] ∧
      opens (main argv env fuel).trace = 0 ∧
      ioctls (main argv env fuel).trace = 0 ∧
      stdout (main argv env fuel).trace = [] := by
  have hlen : 2 ≤ argv.length := by
    obtain ⟨a, ha, -⟩ := h
    match argv, ha with
    | [], ha => simp [optionArgs] at ha
    | [_], ha => simp [optionArgs] at ha
    | _ :: _ :: _, _ => simp
  obtain ⟨b, hb⟩ := parseFrom_unknown_option (argv.drop 1) initial h
  have hres : (parseArgs argv).result = ParseResult.unknown b := by
    rw [parseArgs_result argv (by omega), hb]
  have hl : ¬ argv.length < 2 := by omega
  simp [main, hl, hres, EXIT_ERROR, checks, sleeps, opens, ioctls, stdout]

/-- Witness of C12: `waitfordevice -d /dev/sde -x` is refused with code 1 before any check. -/
theorem C12_unknown_option_witness :
    (main (commandLine ++ [bytes "-x"]) (driveAfter 0) 1).exit = some 1 ∧
      checks (main (commandLine ++ [bytes "-x"]) (driveAfter 0) 1).trace = 0 ∧
      sleeps (main (commandLine ++ [bytes "-x"]) (driveAfter 0) 1).trace = [] ∧
      opens (main (commandLine ++ [bytes "-x"]) (driveAfter 0) 1).trace = 0 ∧
      ioctls (main (commandLine ++ [bytes "-x"]) (driveAfter 0) 1).trace = 0 ∧
      stdout (main (commandLine ++ [bytes "-x"]) (driveAfter 0) 1).trace = [] :=
  C12_unknown_option (commandLine ++ [bytes "-x"]) (driveAfter 0) 1
    ⟨bytes "-x", by decide, by decide⟩

/-! ## What is written to stdout with the verbose flag off -/

/-- With the verbose flag off the polling loop writes the give-up message when it gives up,
and nothing otherwise. -/
theorem pollLoop_stdout_quiet (cfg : Config) (env : Env) (hv : cfg.verbose = false)
    (fuel : Nat) :
    ∀ (i : Nat) (retries : Int),
      stdout (pollLoop cfg env fuel i retries).trace =
        if (pollLoop cfg env fuel i retries).status = PollStatus.gaveUp then
          bytes "No device found\n"
        else [] := by
  induction fuel with
  | zero => intro i retries; simp [pollLoop, stdout]
  | succ f ih =>
    intro i retries
    simp only [pollLoop, hv]
    split
    · simp [stdout]
    · split
      · split
        · simp [stdout]
        · simpa [stdout] using ih _ _
      · simpa [stdout] using ih _ _

/-- With the verbose flag off the identification stage writes the data line after a
successful query, and nothing otherwise. -/
theorem inspect_stdout_quiet (cfg : Config) (env : Env) (hv : cfg.verbose = false) :
    stdout (inspect cfg env).trace =
      if env.openFd < 0 then []
      else if env.ioctlRet = 0 then
        specDataLine cfg.print_model cfg.print_serial
          (printAlnum env.model) (printAlnum env.serial_no)
      else [] := by
  by_cases hopen : env.openFd < 0
  · simp [inspect, hopen, hv, stdout]
  · rw [inspect_opened cfg env (by omega)]
    simp only [hopen, if_false, stdout]
    by_cases hid : env.ioctlRet = 0
    · obtain ⟨diag, hd, hq⟩ := stdout_afterIoctl_ok cfg env hid
      rw [hd, hq hv, stdout_dataOutput]
      simp [hid]
    · simp only [hid, if_false]
      unfold afterIoctl
      by_cases he : env.errno = -ENOMSG
      · cases cfg.sig <;> simp [hid, he, hv, stdout]
      · simp [hid, he, hv, stdout]

/-- The text written to stdout by a run with the verbose flag off. -/
theorem stdout_run_quiet (cfg : Config) (env : Env) (fuel : Nat) (hv : cfg.verbose = false) :
    stdout (run cfg env fuel).trace =
      if (pollLoop cfg env fuel 0 cfg.retries).status = PollStatus.polling then []
      else if (pollLoop cfg env fuel 0 cfg.retries).status = PollStatus.gaveUp then
        bytes "No device found\n"
      else if env.openFd < 0 then []
      else if env.ioctlRet = 0 then
        specDataLine cfg.print_model cfg.print_serial
          (printAlnum env.model) (printAlnum env.serial_no)
      else [] := by
  have hp := pollLoop_stdout_quiet cfg env hv fuel 0 cfg.retries
  have hi := inspect_stdout_quiet cfg env hv
  unfold run
  cases hs : (pollLoop cfg env fuel 0 cfg.retries).status <;>
    simp only [hs, stdout_append, banner_quiet cfg hv, List.nil_append] at hp ⊢
  · rw [hp, hi]; simp
  · rw [hp]; simp
  · rw [hp]; simp

/-- C14 (polling interval). A command line that parses to its end, followed by the option
`-p` and the decimal numeral of `m` with `m * 1000 < 2 ^ 31`, sets `polling_wait` to
`m * 1000` microseconds and leaves the other settings; this also holds when further
arguments without `-p` in option position follow; every sleep of the run is then of
`m * 1000`. When no `-p` stands in option position, `polling_wait` is 250000 and every sleep
is of 250000. -/
theorem C14_polling_interval (pre : List (List Nat)) (opt : List Nat) (m : Nat) (cfg : Config)
    (env : Env) (fuel : Nat)
    (hpre : (parseArgs pre).result = ParseResult.ok cfg)
    (hopt : isOption opt 112 = true)
    (hmax : m * 1000 < 2 ^ 31) :
    (parseArgs (pre ++ [opt, decimal m])).result =
        ParseResult.ok { cfg with polling_wait := ((m * 1000 : Nat) : Int) } ∧
      main (pre ++ [opt, decimal m]) env fuel =
        run { cfg with polling_wait := ((m * 1000 : Nat) : Int) } env fuel ∧
      (∀ post cfg1, (∀ a ∈ optionArgs post, isOption a 112 = false) →
        (parseArgs (pre ++ [opt, decimal m] ++ post)).result = ParseResult.ok cfg1 →
        cfg1.polling_wait = ((m * 1000 : Nat) : Int) ∧
          ∀ u ∈ sleeps (main (pre ++ [opt, decimal m] ++ post) env fuel).trace,
            u = ((m * 1000 : Nat) : Int)) ∧
      (∀ argv cfg0, (∀ a ∈ optionArgs (argv.drop 1), isOption a 112 = false) →
        (parseArgs argv).result = ParseResult.ok cfg0 →
        cfg0.polling_wait = 250000 ∧
          ∀ u ∈ sleeps (main argv env fuel).trace, u = 250000) := by
  have hlen := parseArgs_ok_length pre cfg hpre
  have hstr : strtol (decimal m) = (m : Int) := strtol_decimal m (by simp [LONG_MAX]; omega)
  have hval : toInt32 (strtol (decimal m) * 1000) = ((m * 1000 : Nat) : Int) := by
    rw [hstr, toInt32_eq] <;> push_cast <;> omega
  have hres : (parseArgs (pre ++ [opt, decimal m])).result =
      ParseResult.ok { cfg with polling_wait := ((m * 1000 : Nat) : Int) } := by
    rw [parseArgs_append pre _ cfg hpre, parseFrom_p opt (decimal m) [] cfg hopt, hval]
    rfl
  have hmain := main_ok (pre ++ [opt, decimal m]) env fuel _ (by simp) hres
  refine ⟨hres, hmain, ?_, ?_⟩
  · intro post cfg1 hno hok
    have hw : cfg1.polling_wait = ((m * 1000 : Nat) : Int) := by
      rw [parseArgs_append (pre ++ [opt, decimal m]) post _ hres] at hok
      rw [parseFrom_polling_wait post _ _ hno hok]
    refine ⟨hw, ?_⟩
    rw [main_ok _ env fuel cfg1 (by simp; omega) hok, ← hw]
    exact sleeps_run cfg1 env fuel
  · intro argv cfg0 hno hok
    have hl := parseArgs_ok_length argv cfg0 hok
    have hw : cfg0.polling_wait = 250000 := by
      rw [parseArgs_result argv hl] at hok
      rw [parseFrom_polling_wait _ _ _ hno hok]
      rfl
    refine ⟨hw, ?_⟩
    by_cases h2 : 2 ≤ argv.length
    · rw [main_ok argv env fuel cfg0 h2 hok, ← hw]
      exact sleeps_run cfg0 env fuel
    · have h1 : argv.length < 2 := by omega
      simp [main, h1, sleeps]

/-- Witness of C14: `waitfordevice -d /dev/sde -p 500` sleeps 500000 microseconds between
two checks. -/
theorem C14_polling_interval_witness :
    decimal 500 = bytes "500" ∧
      sleeps (main (commandLine ++ [bytes "-p", decimal 500]) (driveAfter 2) 3).trace =
        [500000, 500000] ∧
      (parseArgs commandLine).result = ParseResult.ok defaults ∧
      defaults.polling_wait = 250000 :=
  have h := C14_polling_interval commandLine (bytes "-p") 500 defaults (driveAfter 2) 3
    (by decide) (by decide) (by decide)
  ⟨by decide, by rw [h.2.1]; decide, by decide,
    (h.2.2.2 commandLine defaults (by decide) (by decide)).1⟩

/-! ## Immediate availability -/

/-- C15 (immediate availability, nothing requested). When the path exists at the first
check and the device opens, and no signature, no print flag and no verbose flag is given,
the program exits with code 0 after exactly one existence check and no sleep and writes
nothing to stdout, whatever the identity query yields. -/
theorem C15_immediate_nothing_requested (cfg : Config) (env : Env) (fuel : Nat)
    (hsig : cfg.sig = none)
    (hM : cfg.print_model = false)
    (hS : cfg.print_serial = false)
    (hv : cfg.verbose = false)
    (hthere : env.access 0 = 0)
    (hopen : 0 ≤ env.openFd)
    (hfuel : 1 ≤ fuel) :
    (run cfg env fuel).exit = some 0 ∧
      stdout (run cfg env fuel).trace = [] ∧
      checks (run cfg env fuel).trace = 1 ∧
      sleeps (run cfg env fuel).trace = [] := by
  obtain ⟨f, rfl⟩ : ∃ f, fuel = f + 1 := ⟨fuel - 1, by omega⟩
  have hloop : pollLoop cfg env (f + 1) 0 cfg.retries =
      { trace := [Event.access cfg.device], status := PollStatus.found,
        retries := cfg.retries } := by
    simp [pollLoop, hthere]
  have hfound : (pollLoop cfg env (f + 1) 0 cfg.retries).status = PollStatus.found := by
    rw [hloop]
  obtain ⟨n1, n2⟩ := inspect_no_poll cfg env
  have hout := stdout_run_quiet cfg env (f + 1) hv
  have hno : ¬ env.openFd < 0 := by omega
  rw [hfound] at hout
  simp only [reduceCtorEq, if_false, hno, hM, hS, specDataLine] at hout
  refine ⟨?_, ?_, ?_, ?_⟩
  · rw [run_found cfg env (f + 1) hfound, inspect_opened cfg env hopen]
    unfold afterIoctl
    simp only [hsig]
    (repeat' split) <;> simp [EXIT_NORMAL]
  · rw [hout]; simp
  · rw [run_found cfg env (f + 1) hfound, hloop]
    simp [checks_append, banner_quiet cfg hv, n1, checks]
  · rw [run_found cfg env (f + 1) hfound, hloop]
    simp [sleeps_append, banner_quiet cfg hv, n2, sleeps]

/-- Witness of C15: `waitfordevice -d /dev/sde` on a drive that is there and has no
identification data exits with code 0 after one check. -/
theorem C15_immediate_nothing_requested_witness :
    (run defaults noIdentity 1).exit = some 0 ∧
      stdout (run defaults noIdentity 1).trace = [] ∧
      checks (run defaults noIdentity 1).trace = 1 ∧
      sleeps (run defaults noIdentity 1).trace = [] :=
  C15_immediate_nothing_requested defaults noIdentity 1 rfl rfl rfl rfl rfl (by decide)
    (by decide)

/-! ## The poller runs before the inspector -/

/-- The identification stage begins with the call of `open`; after it there is no
existence check and no further `open`. -/
theorem inspect_shape (cfg : Config) (env : Env) :
    ∃ post, (inspect cfg env).trace = Event.openDevice cfg.device :: post ∧
      checks post = 0 ∧ opens post = 0 := by
  have h := inspect_no_poll cfg env
  by_cases hopen : env.openFd < 0
  · refine ⟨if cfg.verbose then
        [Event.out (bytes "ERROR: Cannot open device " ++ fmtS cfg.device ++ bytes "\n")]
      else [], by simp [inspect, hopen], ?_, ?_⟩ <;>
      cases cfg.verbose <;> simp [checks, opens]
  · rw [inspect_opened cfg env (by omega)] at h ⊢
    refine ⟨_, rfl, by simpa [checks] using h.1, ?_⟩
    unfold afterIoctl dataOutput
    cases cfg.verbose <;> cases cfg.print_model <;> cases cfg.print_serial <;>
      cases cfg.sig <;> simp [opens] <;> (repeat' split) <;> simp [opens]

/-- C16 (poller before inspector). In every run of the program, either the device is never
opened nor queried, or the trace has the form: events without `open` and query, then an
existence check that returned success, then at once the `open`, and after it no further
existence check and no second `open`. A run that ends with exit code 3 and a run that ends
in an argument error contain no `open` and no identity query. -/
theorem C16_poller_before_inspector (argv : List (List Nat)) (env : Env) (fuel : Nat) :
    ((opens (main argv env fuel).trace = 0 ∧ ioctls (main argv env fuel).trace = 0) ∨
        ∃ pre post dev,
          (main argv env fuel).trace =
            pre ++ Event.access dev :: Event.openDevice dev :: post ∧
          env.access (checks pre) = 0 ∧ opens pre = 0 ∧ ioctls pre = 0 ∧
          checks post = 0 ∧ opens post = 0) ∧
      ((main argv env fuel).exit = some 3 →
        opens (main argv env fuel).trace = 0 ∧ ioctls (main argv env fuel).trace = 0) ∧
      ((argv.length < 2 ∨ ∀ cfg, (parseArgs argv).result ≠ ParseResult.ok cfg) →
        opens (main argv env fuel).trace = 0 ∧ ioctls (main argv env fuel).trace = 0) := by
  have hrun : ∀ cfg,
      ((opens (run cfg env fuel).trace = 0 ∧ ioctls (run cfg env fuel).trace = 0) ∨
        ∃ pre post dev,
          (run cfg env fuel).trace =
            pre ++ Event.access dev :: Event.openDevice dev :: post ∧
          env.access (checks pre) = 0 ∧ opens pre = 0 ∧ ioctls pre = 0 ∧
          checks post = 0 ∧ opens post = 0) ∧
      ((run cfg env fuel).exit = some 3 →
        opens (run cfg env fuel).trace = 0 ∧ ioctls (run cfg env fuel).trace = 0) := by
    intro cfg
    obtain ⟨b1, -, b3, b4⟩ := banner_counts cfg
    obtain ⟨p3, p4⟩ := pollLoop_no_open cfg env fuel 0 cfg.retries
    cases hs : (pollLoop cfg env fuel 0 cfg.retries).status with
    | found =>
      obtain ⟨pre, hp, ha, ho, hi⟩ := pollLoop_found_shape cfg env fuel 0 cfg.retries hs
      obtain ⟨post, hq, hc, ho2⟩ := inspect_shape cfg env
      rw [run_found cfg env fuel hs]
      constructor
      · right
        refine ⟨banner cfg ++ pre, post, cfg.device, ?_, ?_, ?_, ?_, hc, ho2⟩
        · rw [hp, hq]; simp
        · rw [checks_append, b1]; simpa using ha
        · rw [opens_append, b3, ho]
        · rw [ioctls_append, b4, hi]
      · intro h
        rcases inspect_code cfg env with hcode | hcode | hcode <;>
          simp [hcode, EXIT_NORMAL, EXIT_ERROR, EXIT_SIGNATURE_MISSMATCH] at h
    | gaveUp =>
      have : opens (run cfg env fuel).trace = 0 ∧ ioctls (run cfg env fuel).trace = 0 := by
        simp [run, hs, opens_append, ioctls_append, b3, b4, p3, p4]
      exact ⟨Or.inl this, fun _ => this⟩
    | polling =>
      have : opens (run cfg env fuel).trace = 0 ∧ ioctls (run cfg env fuel).trace = 0 := by
        simp [run, hs, opens_append, ioctls_append, b3, b4, p3, p4]
      exact ⟨Or.inl this, fun _ => this⟩
  have herr : (argv.length < 2 ∨ ∀ cfg, (parseArgs argv).result ≠ ParseResult.ok cfg) →
      opens (main argv env fuel).trace = 0 ∧ ioctls (main argv env fuel).trace = 0 := by
    intro h
    by_cases hl : argv.length < 2
    · simp [main, hl, opens, ioctls]
    · rcases h with h | h
      · exact absurd h hl
      · unfold main
        simp only [hl, if_false]
        cases hr : (parseArgs argv).result with
        | ok cfg => exact absurd hr (h cfg)
        | _ => simp [opens, ioctls]
  by_cases hok : ∃ cfg, (parseArgs argv).result = ParseResult.ok cfg
  · obtain ⟨cfg, hr⟩ := hok
    by_cases hl : argv.length < 2
    · have h0 := herr (Or.inl hl)
      exact ⟨Or.inl h0, fun _ => h0, herr⟩
    · have hm := main_ok argv env fuel cfg (by omega) hr
      refine ⟨?_, ?_, herr⟩
      · rw [hm]; exact (hrun cfg).1
      · rw [hm]; exact (hrun cfg).2
  · have h0 := herr (Or.inr (fun cfg h => hok ⟨cfg, h⟩))
    exact ⟨Or.inl h0, fun _ => h0, herr⟩

/-- Witness of C16: without arguments, and when `-r 1` ends in exit code 3, the program
neither opens nor queries a device. -/
theorem C16_poller_before_inspector_witness :
    (opens (main [bytes "waitfordevice"] (driveAfter 0) 1).trace = 0 ∧
        ioctls (main [bytes "waitfordevice"] (driveAfter 0) 1).trace = 0) ∧
      (opens (main (commandLine ++ [bytes "-r", bytes "1"]) neverThere 1).trace = 0 ∧
        ioctls (main (commandLine ++ [bytes "-r", bytes "1"]) neverThere 1).trace = 0) :=
  ⟨(C16_poller_before_inspector [bytes "waitfordevice"] (driveAfter 0) 1).2.2
      (Or.inl (by decide)),
    (C16_poller_before_inspector (commandLine ++ [bytes "-r", bytes "1"]) neverThere 1).2.1
      (by decide)⟩

/-! ## Progress markers -/

/-- C17 (verbose progress markers). With the verbose flag on, the polling loop writes one
`.` for every existence check but the successful one, and with the flag off none. So when
the path is found at attempt `k` there are `k - 1` markers, and when the loop gives up with
the budget `n` there are `n` markers. -/
theorem C17_progress_markers (cfg : Config) (env : Env) (fuel : Nat) :
    (markers (pollLoop cfg env fuel 0 cfg.retries).trace +
          (if cfg.verbose = true ∧
              (pollLoop cfg env fuel 0 cfg.retries).status = PollStatus.found then 1 else 0) =
        if cfg.verbose then checks (pollLoop cfg env fuel 0 cfg.retries).trace else 0) ∧
      (∀ k : Nat, 1 ≤ k → (∀ j, j + 1 < k → env.access j ≠ 0) → env.access (k - 1) = 0 →
        (cfg.retries = -1 ∨ (k : Int) ≤ cfg.retries) → k ≤ fuel →
        markers (pollLoop cfg env fuel 0 cfg.retries).trace =
          if cfg.verbose then k - 1 else 0) ∧
      (∀ n : Nat, 1 ≤ n → cfg.retries = (n : Int) → (∀ j, j < n → env.access j ≠ 0) → n ≤ fuel →
        (pollLoop cfg env fuel 0 cfg.retries).status = PollStatus.gaveUp ∧
        markers (pollLoop cfg env fuel 0 cfg.retries).trace =
          if cfg.verbose then n else 0) := by
  have hgen := markers_pollLoop cfg env fuel 0 cfg.retries
  refine ⟨hgen, ?_, ?_⟩
  · intro k hk hfail hfound hbudget hfuel
    have hloop := pollLoop_found cfg env (k - 1) fuel 0 cfg.retries
      (by intro j hj; simpa using hfail j (by omega))
      (by simpa using hfound)
      (by rcases hbudget with h | h
          · left; omega
          · right; omega)
      (by omega)
    obtain ⟨c1, -, -, -⟩ := failedAttempts_counts cfg (k - 1)
    rw [hloop] at hgen ⊢
    simp only [checks_append, c1, checks, and_true] at hgen
    cases hv : cfg.verbose <;> simp [hv] at hgen ⊢ <;> omega
  · intro n hn hbudget hfail hfuel
    obtain ⟨m, rfl⟩ : ∃ m, n = m + 1 := ⟨n - 1, by omega⟩
    have hloop := pollLoop_gaveUp cfg env m fuel 0
      (by intro j hj; simpa using hfail j (by omega)) (by omega)
    rw [← hbudget] at hloop
    obtain ⟨c1, -, -, -⟩ := failedAttempts_counts cfg m
    rw [hloop] at hgen ⊢
    refine ⟨rfl, ?_⟩
    simp only [checks_append, c1, checks] at hgen
    cases hv : cfg.verbose <;> simp [hv, checks] at hgen ⊢ <;> omega

/-- Witness of C17: with `-v`, a drive found at the third check gives two markers, and the
budget `-r 3` on a path that never appears gives three. -/
theorem C17_progress_markers_witness :
    markers (pollLoop { defaults with verbose := true } (driveAfter 2) 3 0 (-1)).trace = 2 ∧
      markers (pollLoop { defaults with verbose := true, retries := 3 } neverThere 3 0 3).trace
        = 3 :=
  ⟨(C17_progress_markers { defaults with verbose := true } (driveAfter 2) 3).2.1 3 (by decide)
      (by intro j hj; have : j < 2 := by omega
          simp [driveAfter, this])
      (by simp [driveAfter]) (Or.inl rfl) (by decide),
    ((C17_progress_markers { defaults with verbose := true, retries := 3 } neverThere 3).2.2 3
      (by decide) rfl (by intro j _; show (-1 : Int) ≠ 0; decide) (by decide)).2⟩

/-! ## A retry count that is not positive -/

/-- A run does not depend on the value of a counter that is not positive. -/
theorem run_nonpos (cfg : Config) (env : Env) (fuel : Nat) (r : Int) (hr : r ≤ 0) :
    run { cfg with retries := r } env fuel = run { cfg with retries := -1 } env fuel := by
  obtain ⟨h1, h2, -⟩ := pollLoop_nonpos { cfg with retries := r } { cfg with retries := -1 }
    env rfl rfl rfl fuel 0 r (-1) hr (by omega)
  have hb : banner { cfg with retries := r } = banner { cfg with retries := -1 } := rfl
  have hi : inspect { cfg with retries := r } env = inspect { cfg with retries := -1 } env :=
    rfl
  unfold run
  simp only [h1, h2, hb, hi]

/-- A run whose counter is not positive does not end with exit code 3. -/
theorem run_never_gaveUp (cfg : Config) (env : Env) (fuel : Nat) (hr : cfg.retries ≤ 0) :
    (run cfg env fuel).exit ≠ some EXIT_GIVEUP := by
  have hnever := pollLoop_never_gaveUp cfg env fuel 0 cfg.retries hr
  have hcode : (inspect cfg env).code ≠ EXIT_GIVEUP := by
    rcases inspect_code cfg env with h | h | h <;> rw [h] <;> decide
  cases hs : (pollLoop cfg env fuel 0 cfg.retries).status with
  | found => rw [run_found cfg env fuel hs]; simpa using hcode
  | gaveUp => exact absurd hs hnever
  | polling => simp [run, hs]

/-- C18 (a retry count of zero or less). A command line that parses to its end, followed by
`-r` and a text whose value, stored in the `int` variable `retries`, is not positive, runs
exactly as with the default `retries = -1`: same events, same exit code; the polling loop
never changes the counter and the program never exits with code 3. The texts `0`, a text
that does not begin like a number, and the numeral of a negative `int` give such a value. -/
theorem C18_nonpositive_retries (pre : List (List Nat)) (opt text : List Nat) (cfg : Config)
    (env : Env) (fuel : Nat)
    (hpre : (parseArgs pre).result = ParseResult.ok cfg)
    (hopt : isOption opt 114 = true)
    (hr : toInt32 (strtol text) ≤ 0) :
    (parseArgs (pre ++ [opt, text])).result =
        ParseResult.ok { cfg with retries := toInt32 (strtol text) } ∧
      main (pre ++ [opt, text]) env fuel = run { cfg with retries := -1 } env fuel ∧
      (pollLoop { cfg with retries := toInt32 (strtol text) } env fuel 0
        (toInt32 (strtol text))).retries = toInt32 (strtol text) ∧
      (main (pre ++ [opt, text]) env fuel).exit ≠ some EXIT_GIVEUP ∧
      toInt32 (strtol (bytes "0")) = 0 ∧
      (∀ c rest, isspace c = false → (c ≠ 45 ∧ c ≠ 43) → ¬ (48 ≤ c ∧ c ≤ 57) →
        toInt32 (strtol (c :: rest)) = 0) ∧
      (∀ n : Nat, n ≤ 2 ^ 31 → toInt32 (strtol (45 :: decimal n)) = -(n : Int)) := by
  have hres : (parseArgs (pre ++ [opt, text])).result =
      ParseResult.ok { cfg with retries := toInt32 (strtol text) } := by
    rw [parseArgs_append pre _ cfg hpre, parseFrom_r opt text [] cfg hopt]
    rfl
  have hmain : main (pre ++ [opt, text]) env fuel = run { cfg with retries := -1 } env fuel := by
    rw [main_ok (pre ++ [opt, text]) env fuel _ (by simp) hres]
    exact run_nonpos cfg env fuel _ hr
  refine ⟨hres, hmain, ?_, ?_, by decide, ?_, ?_⟩
  · exact (pollLoop_nonpos _ _ env rfl rfl rfl fuel 0 _ _ hr hr).2.2
  · rw [hmain]
    exact run_never_gaveUp _ env fuel (by simp)
  · intro c rest h1 h2 h3
    rw [strtol_non_numeric c rest h1 h2 h3]
    decide
  · intro n hn
    rw [strtol_neg_decimal n (by simp [LONG_MIN]; omega), toInt32_eq] <;> omega

/-- Witness of C18: `waitfordevice -d /dev/sde -r 0` and `-r abc` run as
`waitfordevice -d /dev/sde`; three failed checks leave the program polling. -/
theorem C18_nonpositive_retries_witness :
    main (commandLine ++ [bytes "-r", bytes "0"]) neverThere 3 = run defaults neverThere 3 ∧
      main (commandLine ++ [bytes "-r", bytes "abc"]) neverThere 3 = run defaults neverThere 3 ∧
      (run defaults neverThere 3).exit = none :=
  ⟨(C18_nonpositive_retries commandLine (bytes "-r") (bytes "0") defaults neverThere 3
      (by decide) (by decide) (by decide)).2.1,
    (C18_nonpositive_retries commandLine (bytes "-r") (bytes "abc") defaults neverThere 3
      (by decide) (by decide) (by decide)).2.1,
    by decide⟩

/-! ## The data line and the signature -/

/-- After a successful identity query the events are those of the data output, followed by
diagnostics only when verbose. -/
theorem afterIoctl_trace_ok (cfg : Config) (env : Env) (hid : env.ioctlRet = 0) :
    ∃ diag, (afterIoctl cfg env).trace = dataOutput cfg env ++ diag ∧
      (cfg.verbose = false → diag = []) := by
  unfold afterIoctl
  simp only [hid, if_true]
  cases cfg.sig with
  | none =>
    cases hv : cfg.verbose
    · exact ⟨[], by simp, fun _ => rfl⟩
    · exact ⟨_, rfl, by simp⟩
  | some sig =>
    cases hv : cfg.verbose
    · refine ⟨[], ?_, fun _ => rfl⟩
      simp only []
      split <;> simp
    · simp only []
      split
      · exact ⟨_, by simp only [List.append_assoc]; rfl, by simp⟩
      · exact ⟨_, by simp only [List.append_assoc]; rfl, by simp⟩

/-- The polling loop reads the device, the verbose flag and the interval only: two
configurations that agree on them give the same loop. -/
theorem pollLoop_congr (cfg cfg2 : Config) (env : Env)
    (hd : cfg2.device = cfg.device) (hv : cfg2.verbose = cfg.verbose)
    (hw : cfg2.polling_wait = cfg.polling_wait) (fuel : Nat) :
    ∀ (i : Nat) (r : Int), pollLoop cfg2 env fuel i r = pollLoop cfg env fuel i r := by
  induction fuel with
  | zero => intro i r; simp [pollLoop]
  | succ f ih =>
    intro i r
    simp only [pollLoop, hd, hv, hw, ih]

/-- C19 (data line on signature mismatch). Let the path be found, the device open and the
identity query succeed, with a NUL byte in the structure at or after the model field, so
that the strings read at `hd.serial_no` and `hd.model` end inside the structure. Then for
every setting of the signature (absent, matching or not) the identification stage writes
the same data output right after the query, followed by diagnostics only when verbose, and
with the verbose flag off the text written to stdout by the run is the same data line. When
the signature is found neither in the string at `hd.model` nor in the string at
`hd.serial_no`, the program exits with code 2 after the data line has been written. -/
theorem C19_data_line_on_mismatch (cfg : Config) (env : Env) (fuel : Nat)
    (hfound : (pollLoop cfg env fuel 0 cfg.retries).status = PollStatus.found)
    (hopen : 0 ≤ env.openFd)
    (hid : env.ioctlRet = 0)
    (_hterm : 0 ∈ env.model) :
    (∀ sig', ∃ diag,
        (inspect { cfg with sig := sig' } env).trace =
          Event.openDevice cfg.device :: Event.ioctl :: (dataOutput cfg env ++ diag) ∧
        (cfg.verbose = false → diag = [])) ∧
      (∀ sig', cfg.verbose = false →
        stdout (run { cfg with sig := sig' } env fuel).trace = stdout (dataOutput cfg env)) ∧
      (∀ s, ¬ (cstr s <:+: cstr env.model ∨ cstr s <:+: cstr env.serial_no) →
        (run { cfg with sig := some s } env fuel).exit = some 2 ∧
          ∃ diag, (run { cfg with sig := some s } env fuel).trace =
            banner { cfg with sig := some s } ++
              (pollLoop cfg env fuel 0 cfg.retries).trace ++
              Event.openDevice cfg.device :: Event.ioctl :: (dataOutput cfg env ++ diag)) := by
  have hloop : ∀ sig', pollLoop { cfg with sig := sig' } env fuel 0 cfg.retries =
      pollLoop cfg env fuel 0 cfg.retries :=
    fun sig' => pollLoop_congr cfg { cfg with sig := sig' } env rfl rfl rfl fuel 0 cfg.retries
  have hfound' : ∀ sig', (pollLoop { cfg with sig := sig' } env fuel 0
      ({ cfg with sig := sig' } : Config).retries).status = PollStatus.found := by
    intro sig'
    exact (congrArg PollOut.status (hloop sig')).trans hfound
  have hins : ∀ sig', ∃ diag,
      (inspect { cfg with sig := sig' } env).trace =
        Event.openDevice cfg.device :: Event.ioctl :: (dataOutput cfg env ++ diag) ∧
      (cfg.verbose = false → diag = []) := by
    intro sig'
    obtain ⟨diag, hd, hq⟩ := afterIoctl_trace_ok { cfg with sig := sig' } env hid
    refine ⟨diag, ?_, hq⟩
    rw [inspect_opened _ env hopen, hd]
    rfl
  refine ⟨hins, fun sig' hv => ?_, fun s hmiss => ?_⟩
  · have hno : ¬ env.openFd < 0 := by omega
    rw [stdout_run_quiet { cfg with sig := sig' } env fuel hv, hfound' sig']
    simp only [reduceCtorEq, if_false, hno, hid, if_true]
    exact (stdout_dataOutput cfg env).symm
  · obtain ⟨diag, hd, -⟩ := hins (some s)
    constructor
    · rw [run_found _ env fuel (hfound' (some s)), inspect_opened _ env hopen,
        afterIoctl_code_sig _ env s rfl hid]
      simp [hmiss, EXIT_SIGNATURE_MISSMATCH]
    · refine ⟨diag, ?_⟩
      rw [run_found _ env fuel (hfound' (some s)), hd]
      exact congrArg (fun t => banner { cfg with sig := some s } ++ t ++
        Event.openDevice cfg.device :: Event.ioctl :: (dataOutput cfg env ++ diag))
        (congrArg PollOut.trace (hloop (some s)))

/-- Witness of C19: with `-M -S` the drive `ST-1000`, `SN#42` is reported as `ST1000-SN42`
without a signature, with the signature `1000` that matches and with `9999` that does not;
with `9999` the exit code is 2. -/
theorem C19_data_line_on_mismatch_witness :
    stdout (run { printAndVerify with sig := none } (driveAfter 0) 1).trace =
        bytes "ST1000-SN42\n" ∧
      stdout (run { printAndVerify with sig := some (bytes "1000") } (driveAfter 0) 1).trace =
        bytes "ST1000-SN42\n" ∧
      stdout (run { printAndVerify with sig := some (bytes "9999") } (driveAfter 0) 1).trace =
        bytes "ST1000-SN42\n" ∧
      (run { printAndVerify with sig := some (bytes "9999") } (driveAfter 0) 1).exit = some 2 :=
  have h := C19_data_line_on_mismatch printAndVerify (driveAfter 0) 1 (by decide) (by decide)
    rfl (by decide)
  ⟨(h.2.1 none rfl).trans (by decide), (h.2.1 (some (bytes "1000")) rfl).trans (by decide),
    (h.2.1 (some (bytes "9999")) rfl).trans (by decide),
    (h.2.2 (bytes "9999")
      (by rw [← strstrAux_isSome, ← strstrAux_isSome]; decide)).1⟩

/-! ## Argument parsing stays within argv -/

/-- C20 (parsing stays within `argv`). For every argument vector with `argc ≥ 2`, every
index at which the parser reads `argv` is below `argc`, and the parsing loop comes to its
end within `argc` iterations. When the last argument is `-d`, `-s`, `-p` or `-r` in option
position, so that its value is missing, the program exits with code 1 without any event but
the message on stderr: no existence check and no read past the end. -/
theorem C20_parse_within_argv (argv : List (List Nat)) (env : Env) (fuel : Nat)
    (hargc : 2 ≤ argv.length) :
    (∀ r ∈ (parseArgs argv).reads, r < argv.length) ∧
      (parseArgs argv).result ≠ ParseResult.fault ∧
      (parseArgs argv).result ≠ ParseResult.unfinished ∧
      (valueMissing (argv.drop 1) = true →
        (main argv env fuel).exit = some 1 ∧
          checks (main argv env fuel).trace = 0 ∧
          (∃ msg, (main argv env fuel).trace = [Event.err msg])) := by
  have hres := parseArgs_result argv (by omega)
  have hfin := parseFrom_finished (argv.drop 1) initial
  refine ⟨?_, by rw [hres]; exact hfin.1, by rw [hres]; exact hfin.2, fun hmiss => ?_⟩
  · exact parseLoop_reads argv argv.length _ (by simp)
  · have hl : ¬ argv.length < 2 := by omega
    rcases parseFrom_valueMissing (argv.drop 1) initial hmiss with h | ⟨b, h⟩
    · rw [← hres] at h
      simp [main, hl, h, EXIT_ERROR, checks]
    · rw [← hres] at h
      simp [main, hl, h, EXIT_ERROR, checks]

/-- Witness of C20: in `waitfordevice -v -d` the value of `-d` is missing; the parser reads
`argv[1]` and `argv[2]` only and the program exits with code 1. -/
theorem C20_parse_within_argv_witness :
    (parseArgs [bytes "waitfordevice", bytes "-v", bytes "-d"]).reads = [1, 2] ∧
      (main [bytes "waitfordevice", bytes "-v", bytes "-d"] (driveAfter 0) 1).exit = some 1 ∧
      checks (main [bytes "waitfordevice", bytes "-v", bytes "-d"] (driveAfter 0) 1).trace = 0 :=
  have h := (C20_parse_within_argv [bytes "waitfordevice", bytes "-v", bytes "-d"]
    (driveAfter 0) 1 (by decide)).2.2.2 (by decide)
  ⟨by decide, h.1, h.2.1⟩

end Waitfordevice
